import Mathlib

/-!
# dilog: a shallow embedding of `dilog.h`

Conventions of the embedding.

* A `char` is a natural number (its value as `unsigned char`); a `char[N]`
  array is the list of its `N` bytes.  A `const char*` argument is
  `Option (List Nat)`: `none` is `NULL`, `some l` points at the bytes `l`.
  Reading a byte past the end of a list yields `0`, so that every list is a
  NUL-terminated C string whose text is `cstr l`.  For the arrays of a topic
  this is the C code on topics whose arrays hold a NUL (`topic_invariant`);
  from an array without NUL the C code reads on into the next member of the
  struct, which the lists do not represent, so the statements about what a
  topic prints take `topic_invariant` as a hypothesis.
* `int` and `long` values are integers, narrowed explicitly where the C
  code narrows them.
* The global `g_dilog_ctx` becomes an explicit `dilog_context_t` value that
  is passed to every operation; operations that print return the registry
  they leave behind together with the bytes written to standard output.
* The wall clock read by `dilog_get_timestamp_struct` is an argument.
-/

namespace Dilog

/-! ## Constants -/

def DILOG_MAX_TOPICS : Nat := 16
def DILOG_MAX_NAME_LEN : Nat := 32
def DILOG_MAX_FORMAT_LEN : Nat := 128
def DILOG_MAX_TYPE_COUNT : Nat := 8
def DILOG_MAX_TYPE_NAME : Nat := 16
def DILOG_MAX_COLOR_LEN : Nat := 16
def DILOG_MAX_OUTPUT_PATH : Nat := 256

/-! ## Bytes and C strings -/

/-- The bytes of a string literal (ASCII), without the terminator. -/
def bytes (s : String) : List Nat := s.toList.map Char.toNat

/-- The byte `s[i]`; `0` past the end of the list. -/
def byte_at (s : List Nat) (i : Nat) : Nat := s.getD i 0

/-- The text of the C string stored in `s`: the bytes before the first NUL. -/
def cstr (s : List Nat) : List Nat := s.takeWhile (fun c => c != 0)

/-- C library `strncmp(a, b, n)`: the difference of the first pair of bytes
that differ among the first `n`, `0` when a NUL is reached in both or `n`
bytes agree. -/
def strncmp (a b : List Nat) : Nat → Int
  | 0 => 0
  | n + 1 =>
    if byte_at a 0 ≠ byte_at b 0 then (byte_at a 0 : Int) - (byte_at b 0 : Int)
    else if byte_at a 0 = 0 then 0
    else strncmp a.tail b.tail n

/-- C library `strncpy(dst, src, n)`: the first `n` bytes of `dst` become the
text of `src` cut to `n` bytes and padded with NULs up to `n`; the bytes of
`dst` from `n` on are kept. -/
def strncpy (dst src : List Nat) (n : Nat) : List Nat :=
  ((cstr src ++ List.replicate n 0).take n) ++ dst.drop n

/-! ## Structures -/

/-- The struct `dilog_log_type_t`. -/
structure dilog_log_type_t where
  type_name : List Nat
  color : List Nat
deriving DecidableEq, Repr

/-- The struct `dilog_timestamp_t`. -/
structure dilog_timestamp_t where
  year : Int
  month : Int
  day : Int
  hour : Int
  minute : Int
  second : Int
  ms : Int
  timezone : List Nat
deriving DecidableEq, Repr

/-- The struct `dilog_topic_t`; `file` is `none` for a `NULL` handle. -/
structure dilog_topic_t where
  name : List Nat
  format : List Nat
  default_type : List Nat
  file_output_path : List Nat
  terminal_output : Bool
  terminal_advanced : Bool
  types : List dilog_log_type_t
  type_count : Nat
  file : Option Nat
deriving DecidableEq, Repr

/-- The struct `dilog_context_t`. -/
structure dilog_context_t where
  topics : List dilog_topic_t
  topic_count : Nat
  current_topic_index : Nat
  default_topic : List Nat
deriving DecidableEq, Repr

/-- A zero-filled `dilog_log_type_t`. -/
def zero_log_type : dilog_log_type_t :=
  { type_name := List.replicate DILOG_MAX_TYPE_NAME 0,
    color := List.replicate DILOG_MAX_COLOR_LEN 0 }

/-- A zero-filled `dilog_topic_t`, the result of
`memset(topic, 0, sizeof(dilog_topic_t))`. -/
def zero_topic : dilog_topic_t :=
  { name := List.replicate DILOG_MAX_NAME_LEN 0,
    format := List.replicate DILOG_MAX_FORMAT_LEN 0,
    default_type := List.replicate DILOG_MAX_TYPE_NAME 0,
    file_output_path := List.replicate DILOG_MAX_OUTPUT_PATH 0,
    terminal_output := false,
    terminal_advanced := false,
    types := List.replicate DILOG_MAX_TYPE_COUNT zero_log_type,
    type_count := 0,
    file := none }

/-- The static `g_dilog_ctx = { .topic_count = 0, .current_topic_index = 0 }`:
every member that is not named is zero-initialised. -/
def g_dilog_ctx : dilog_context_t :=
  { topics := List.replicate DILOG_MAX_TOPICS zero_topic,
    topic_count := 0,
    current_topic_index := 0,
    default_topic := List.replicate DILOG_MAX_NAME_LEN 0 }

/-- The element `g_dilog_ctx.topics[i]` (a zero-filled topic outside the list). -/
def topic_at (ctx : dilog_context_t) (i : Nat) : dilog_topic_t :=
  ctx.topics.getD i zero_topic

/-- The element `topic->types[i]` (a zero-filled entry outside the list). -/
def type_at (topic : dilog_topic_t) (i : Nat) : dilog_log_type_t :=
  topic.types.getD i zero_log_type

/-! ## Utils -/

/-- The `for` loop of `dilog_get_topic`, with `k` iterations left from index
`i`: the index of the first topic whose name compares equal. -/
def dilog_get_topic_loop (ctx : dilog_context_t) (name : List Nat) : Nat → Nat → Option Nat
  | 0, _ => none
  | k + 1, i =>
    if strncmp (topic_at ctx i).name name DILOG_MAX_NAME_LEN = 0 then some i
    else dilog_get_topic_loop ctx name k (i + 1)

/-- The function `dilog_get_topic`: the returned pointer `&topics[i]` is the
index `i`, `NULL` is `none`. -/
def dilog_get_topic (ctx : dilog_context_t) (name : Option (List Nat)) : Option Nat :=
  match name with
  | none => none
  | some nm => dilog_get_topic_loop ctx nm ctx.topic_count 0

/-! ## C library formatting and parsing -/

/-- Decimal digits of `n`, most significant first, pushed in front of `acc`;
the first argument bounds the number of digits produced. -/
def dec_digits_loop : Nat → Nat → List Nat → List Nat
  | 0, _, acc => acc
  | fuel + 1, n, acc =>
    if n < 10 then (48 + n) :: acc
    else dec_digits_loop fuel (n / 10) ((48 + n % 10) :: acc)

/-- The decimal numeral of `n` in ASCII. -/
def dec_digits (n : Nat) : List Nat := dec_digits_loop (n + 1) n []

/-- The text produced by the conversion `%d` for the `int` value `v`. -/
def printf_d (v : Int) : List Nat :=
  if v < 0 then 45 :: dec_digits v.natAbs else dec_digits v.natAbs

/-- The text produced by the conversion `%0wd` for the `int` value `v`: the
numeral is padded with zeros on the left, after the sign, up to `w` bytes. -/
def printf_0d (w : Nat) (v : Int) : List Nat :=
  if v < 0 then
    45 :: (List.replicate (w - 1 - (dec_digits v.natAbs).length) 48 ++ dec_digits v.natAbs)
  else List.replicate (w - (dec_digits v.natAbs).length) 48 ++ dec_digits v.natAbs

/-- The C library `isspace` in the C locale. -/
def isspace (c : Nat) : Bool := c == 32 || (9 ≤ c && c ≤ 13)

/-- The value of a hexadecimal digit, `none` for any other byte. -/
def hex_digit (c : Nat) : Option Nat :=
  if 48 ≤ c ∧ c ≤ 57 then some (c - 48)
  else if 97 ≤ c ∧ c ≤ 102 then some (c - 87)
  else if 65 ≤ c ∧ c ≤ 70 then some (c - 55)
  else none

/-- The value of the longest run of hexadecimal digits at the start of `s`,
continuing from the value `acc`. -/
def hex_accum : List Nat → Nat → Nat
  | [], acc => acc
  | c :: s, acc =>
    match hex_digit c with
    | some d => hex_accum s (16 * acc + d)
    | none => acc

/-- The largest `long` (64-bit). -/
def LONG_MAX : Int := 2 ^ 63 - 1

/-- The smallest `long` (64-bit). -/
def LONG_MIN : Int := -(2 ^ 63)

/-- C library `strtol(s, NULL, 16)`: skips white space, takes an optional
sign, takes an optional `0x` or `0X` when a hexadecimal digit follows it,
converts the longest run of hexadecimal digits and clamps the value to the
range of `long`. -/
def strtol_base16 (s : List Nat) : Int :=
  let s1 := s.dropWhile isspace
  let neg : Bool := s1.head? == some 45
  let s2 := if s1.head? = some 45 ∨ s1.head? = some 43 then s1.tail else s1
  let s3 :=
    match s2 with
    | 48 :: x :: h :: r =>
      if (x = 120 ∨ x = 88) ∧ (hex_digit h).isSome then h :: r else s2
    | _ => s2
  let v : Int := (hex_accum s3 0 : Nat)
  if neg then max LONG_MIN (-v) else min LONG_MAX v

/-- The conversion `(int)` of a `long`: the value modulo `2 ^ 32`, signed. -/
def to_int (v : Int) : Int := (v + 2 ^ 31) % 2 ^ 32 - 2 ^ 31

/-- The expression `x >> k & 0xFF` on an `int`: an arithmetic shift, which
is the floor of the division by `2 ^ k`, then the low eight bits. -/
def shift_mask (x : Int) (k : Nat) : Int := (x / 2 ^ k) % 256

/-- The bytes `bs` stored into `buf` from index `pos` on. -/
def write_bytes (buf : List Nat) (pos : Nat) (bs : List Nat) : List Nat :=
  buf.take pos ++ bs ++ buf.drop (pos + bs.length)

/-- C library `snprintf(&output[out_index], size, FORMAT, VALUE)`, where `text`
is what `FORMAT` produces for `VALUE`: at most `size - 1` bytes of `text` and
a NUL are stored, and the length of the whole of `text` is returned. -/
def snprintf (output : List Nat) (out_index size : Nat) (text : List Nat) : List Nat × Nat :=
  if size = 0 then (output, text.length)
  else (write_bytes output out_index (text.take (size - 1) ++ [0]), text.length)

/-! ## The renderer of `dilog_console_print` -/

/-- The ten keywords of the format template. -/
inductive keyword where
  | year | month | day | hour | minute | second | ms | timezone | type | log
deriving DecidableEq, Repr

/-- The argument `KEYWORD` of each `MATCH_AND_WRITE`. -/
def KEYWORD : keyword → List Nat
  | .year => bytes "year"
  | .month => bytes "month"
  | .day => bytes "day"
  | .hour => bytes "hour"
  | .minute => bytes "minute"
  | .second => bytes "second"
  | .ms => bytes "ms"
  | .timezone => bytes "timezone"
  | .type => bytes "type"
  | .log => bytes "log"

/-- The text that `snprintf` produces from the arguments `FORMAT, VALUE` of
each `MATCH_AND_WRITE`. -/
def format_value (type message : List Nat) (ts : dilog_timestamp_t) : keyword → List Nat
  | .year => printf_0d 4 ts.year
  | .month => printf_0d 2 ts.month
  | .day => printf_0d 2 ts.day
  | .hour => printf_0d 2 ts.hour
  | .minute => printf_0d 2 ts.minute
  | .second => printf_0d 2 ts.second
  | .ms => printf_0d 3 ts.ms
  | .timezone => cstr ts.timezone
  | .type => cstr type
  | .log => cstr message

/-- The `if`/`else` chain of `MATCH_AND_WRITE`, in the order of the source. -/
def match_and_write_chain : List keyword :=
  [.year, .month, .day, .hour, .minute, .second, .ms, .timezone, .type, .log]

/-- The test `strncmp(&fmt[i], KEYWORD, sizeof(KEYWORD) - 1) == 0`. -/
def keyword_matches (fmt : List Nat) (i : Nat) (k : keyword) : Bool :=
  strncmp (fmt.drop i) (KEYWORD k) (KEYWORD k).length == 0

/-- The first keyword of the chain whose test succeeds at `&fmt[i]`. -/
def first_match (chain : List keyword) (fmt : List Nat) (i : Nat) : Option keyword :=
  chain.find? (keyword_matches fmt i)

/-- The loop `for (size_t i = 0; fmt[i] && out_index < sizeof(output) - 1;)`
over the state `(i, output, out_index)`, returning `(output, out_index)` at
the exit; the first numeric argument bounds the number of iterations. -/
def render_loop (chain : List keyword) (fmt type message : List Nat) (ts : dilog_timestamp_t) :
    Nat → Nat → List Nat → Nat → List Nat × Nat
  | 0, _, output, out_index => (output, out_index)
  | fuel + 1, i, output, out_index =>
    if byte_at fmt i ≠ 0 ∧ out_index < 1024 - 1 then
      match first_match chain fmt i with
      | some k =>
        render_loop chain fmt type message ts fuel (i + (KEYWORD k).length)
          (snprintf output out_index (1024 - out_index) (format_value type message ts k)).1
          (out_index + (snprintf output out_index (1024 - out_index)
            (format_value type message ts k)).2)
      | none =>
        render_loop chain fmt type message ts fuel (i + 1)
          (output.set out_index (byte_at fmt i)) (out_index + 1)
    else (output, out_index)

/-- Lines 153 to 184 of `dilog_console_print`: the buffer `output` and the
index `out_index` after the loop and the store `output[out_index] = 0`.
Every iteration advances `i` over non-NUL bytes of `fmt`, so `fmt.length + 1`
iterations reach the exit.  A store at an index of 1024 or more lands outside
`output` and leaves the list as it is. -/
def render (fmt type message : List Nat) (ts : dilog_timestamp_t) : List Nat × Nat :=
  let r := render_loop match_and_write_chain fmt type message ts (fmt.length + 1) 0
    (List.replicate 1024 0) 0
  (r.1.set r.2 0, r.2)

/-- The `for` loop that looks `type` up in the palette of `topic`, with `k`
iterations left from index `i`: the pointer `color_code`. -/
def color_code_loop (topic : dilog_topic_t) (type : List Nat) : Nat → Nat → Option (List Nat)
  | 0, _ => none
  | k + 1, i =>
    if strncmp (type_at topic i).type_name type DILOG_MAX_TYPE_NAME = 0 then
      some (type_at topic i).color
    else color_code_loop topic type k (i + 1)

/-- The triple `(r, g, b)` of lines 187 to 189. -/
def color_rgb (color_code : List Nat) : Int × Int × Int :=
  (shift_mask (to_int (strtol_base16 (color_code.drop 1))) 16,
   shift_mask (to_int (strtol_base16 (color_code.drop 1))) 8,
   shift_mask (to_int (strtol_base16 (color_code.drop 1))) 0)

/-- Lines 186 to 193: the bytes that the two `printf` calls write. -/
def print_output (color_code : Option (List Nat)) (output : List Nat) : List Nat :=
  match color_code with
  | some c =>
    bytes "\x1b[38;2;" ++ printf_d (color_rgb c).1 ++ bytes ";" ++ printf_d (color_rgb c).2.1
      ++ bytes ";" ++ printf_d (color_rgb c).2.2 ++ bytes "m" ++ cstr output ++ bytes "\x1b[0m\n"
  | none => cstr output ++ bytes "\n"

/-- Lines 136 and 137: the topic that `dilog_console_print` works on, by name
when a name is given and else at `current_topic_index`; `none` is `NULL`. -/
def resolve_topic (ctx : dilog_context_t) (topic_name : Option (List Nat)) :
    Option dilog_topic_t :=
  match topic_name with
  | some nm => (dilog_get_topic ctx (some nm)).map (topic_at ctx)
  | none => some (topic_at ctx ctx.current_topic_index)

/-- The function `dilog_console_print`, at the time `ts`: the registry after
the call and the bytes written to standard output.  The format and the colour
are read as the C strings of their arrays, which is what the C code reads
when the arrays hold a NUL (`topic_invariant`). -/
def dilog_console_print (ctx : dilog_context_t) (ts : dilog_timestamp_t)
    (topic_name type message : Option (List Nat)) : dilog_context_t × List Nat :=
  match type, message with
  | some ty, some msg =>
    match resolve_topic ctx topic_name with
    | none => (ctx, [])
    | some t =>
      if !t.terminal_output then (ctx, [])
      else
        (ctx, print_output (color_code_loop t ty t.type_count 0) (render t.format ty msg ts).1)
  | _, _ => (ctx, [])

/-! ## API: `dilog_init` -/

/-- The function `dilog_init`. -/
def dilog_init (ctx : dilog_context_t) : dilog_context_t :=
  if ctx.topic_count > 0 then ctx
  else
    let default_topic := strncpy ctx.default_topic (bytes "main") (DILOG_MAX_NAME_LEN - 1)
    let topic := zero_topic
    let topic := { topic with name := strncpy topic.name (bytes "main") (DILOG_MAX_NAME_LEN - 1) }
    let topic := { topic with
      format := strncpy topic.format (bytes "[year-month-day hour:minute:second.ms] <type>: log")
        (DILOG_MAX_FORMAT_LEN - 1) }
    let topic := { topic with terminal_output := true }
    let topic := { topic with terminal_advanced := false }
    let topic := { topic with
      types := topic.types.set 0 ({ (type_at topic 0) with
        type_name := strncpy (type_at topic 0).type_name (bytes "error") (DILOG_MAX_TYPE_NAME - 1) }) }
    let topic := { topic with
      types := topic.types.set 0 ({ (type_at topic 0) with
        color := strncpy (type_at topic 0).color (bytes "#B1FF31") (DILOG_MAX_COLOR_LEN - 1) }) }
    let topic := { topic with
      types := topic.types.set 1 ({ (type_at topic 1) with
        type_name := strncpy (type_at topic 1).type_name (bytes "info") (DILOG_MAX_TYPE_NAME - 1) }) }
    let topic := { topic with
      types := topic.types.set 1 ({ (type_at topic 1) with
        color := strncpy (type_at topic 1).color (bytes "#11FF11") (DILOG_MAX_COLOR_LEN - 1) }) }
    let topic := { topic with
      default_type := strncpy topic.default_type (bytes "info") (DILOG_MAX_TYPE_NAME - 1) }
    let topic := { topic with type_count := 2 }
    let topic := { topic with file_output_path := topic.file_output_path.set 0 0 }
    let topic := { topic with file := none }
    { topics := ctx.topics.set 0 topic,
      topic_count := 1,
      current_topic_index := 0,
      default_topic := default_topic }


/-! ## API: `dilog` -/

/-- The function `dilog`, at the time `ts`.  The member `default_topic` is an
array, so its address is never `NULL` and the topic is always looked up by
name. -/
def dilog (ctx : dilog_context_t) (ts : dilog_timestamp_t) (log : Option (List Nat)) :
    dilog_context_t × List Nat :=
  match log with
  | none => (ctx, [])
  | some msg =>
    match dilog_get_topic ctx (some ctx.default_topic) with
    | none => (ctx, [])
    | some idx =>
      if !(topic_at ctx idx).terminal_output then (ctx, [])
      else
        dilog_console_print ctx ts (some (topic_at ctx idx).name)
          (some (topic_at ctx idx).default_type) (some msg)

/-! ## Reference notions used by the statements -/

/-- Two names agree on their first 32 bytes as C strings: the comparison that
`strncmp(stored, given, DILOG_MAX_NAME_LEN) == 0` is meant to decide. -/
def names_agree (stored given : List Nat) : Prop :=
  (cstr stored).take DILOG_MAX_NAME_LEN = (cstr given).take DILOG_MAX_NAME_LEN

instance (stored given : List Nat) : Decidable (names_agree stored given) := by
  unfold names_agree
  infer_instance

/-- Two type names agree on their first 16 bytes as C strings: the comparison
that `strncmp(stored, given, DILOG_MAX_TYPE_NAME) == 0` is meant to decide. -/
def types_agree (stored given : List Nat) : Prop :=
  (cstr stored).take DILOG_MAX_TYPE_NAME = (cstr given).take DILOG_MAX_TYPE_NAME

instance (stored given : List Nat) : Decidable (types_agree stored given) := by
  unfold types_agree
  infer_instance

/-- The decimal numeral of `n` written with exactly `w` digits. -/
def zero_padded : Nat → Nat → List Nat
  | 0, _ => []
  | w + 1, n => zero_padded w (n / 10) ++ [48 + n % 10]

/-- A unit of the template: a keyword or one literal byte. -/
inductive token where
  | key (k : keyword)
  | lit (c : Nat)
deriving DecidableEq, Repr

/-- The units of the template `fmt` from index `i` on, read left to right
with the keyword chain `chain`, up to the terminating NUL; the first numeric
argument bounds the number of units. -/
def tokenize (chain : List keyword) (fmt : List Nat) : Nat → Nat → List token
  | 0, _ => []
  | fuel + 1, i =>
    if byte_at fmt i = 0 then []
    else
      match first_match chain fmt i with
      | some k => token.key k :: tokenize chain fmt fuel (i + (KEYWORD k).length)
      | none => token.lit (byte_at fmt i) :: tokenize chain fmt fuel (i + 1)

/-- The text that a unit of the template stands for. -/
def token_text (type message : List Nat) (ts : dilog_timestamp_t) : token → List Nat
  | .key k => format_value type message ts k
  | .lit c => [c]

/-- The texts of a list of units, one after the other. -/
def concat_texts (type message : List Nat) (ts : dilog_timestamp_t) : List token → List Nat
  | [] => []
  | t :: rest => token_text type message ts t ++ concat_texts type message ts rest

/-- The rendering of `fmt` without any limit on its length. -/
def reference_render (fmt type message : List Nat) (ts : dilog_timestamp_t) : List Nat :=
  concat_texts type message ts (tokenize match_and_write_chain fmt (fmt.length + 1) 0)

/-- The line that the default format stands for at the time `ts`, with the
type `info` and the message `m`. -/
def default_line (ts : dilog_timestamp_t) (m : List Nat) : List Nat :=
  bytes "[" ++ zero_padded 4 ts.year.toNat ++ bytes "-" ++ zero_padded 2 ts.month.toNat
    ++ bytes "-" ++ zero_padded 2 ts.day.toNat ++ bytes " " ++ zero_padded 2 ts.hour.toNat
    ++ bytes ":" ++ zero_padded 2 ts.minute.toNat ++ bytes ":" ++ zero_padded 2 ts.second.toNat
    ++ bytes "." ++ zero_padded 3 ts.ms.toNat ++ bytes "] <info>: " ++ cstr m

/-- The timestamp `(2024, 3, 7, 9, 5, 2, 7, "UTC")`. -/
def ts_example : dilog_timestamp_t :=
  { year := 2024, month := 3, day := 7, hour := 9, minute := 5, second := 2, ms := 7,
    timezone := bytes "UTC" }

/-- The registry left by `dilog_init` with the terminal output of `main`
switched off. -/
def muted_registry : dilog_context_t :=
  { dilog_init g_dilog_ctx with
    topics := (dilog_init g_dilog_ctx).topics.set 0
      ({ (topic_at (dilog_init g_dilog_ctx) 0) with terminal_output := false }) }

/-- The registry left by `dilog_init` with the colour of the type `info` of
`main` set to the empty string. -/
def colorless_registry : dilog_context_t :=
  { dilog_init g_dilog_ctx with
    topics := (dilog_init g_dilog_ctx).topics.set 0
      ({ (topic_at (dilog_init g_dilog_ctx) 0) with
        types := (topic_at (dilog_init g_dilog_ctx) 0).types.set 1
          ({ (type_at (topic_at (dilog_init g_dilog_ctx) 0) 1) with
            color := List.replicate DILOG_MAX_COLOR_LEN 0 }) }) }

/-- The renderer of lines 153 to 184 with the tests of the `if`/`else` chain
taken in the order `chain`; `render` is the instance with the order of the
source. -/
def render_with (chain : List keyword) (fmt type message : List Nat) (ts : dilog_timestamp_t) :
    List Nat × Nat :=
  ((render_loop chain fmt type message ts (fmt.length + 1) 0 (List.replicate 1024 0) 0).1.set
      (render_loop chain fmt type message ts (fmt.length + 1) 0 (List.replicate 1024 0) 0).2 0,
   (render_loop chain fmt type message ts (fmt.length + 1) 0 (List.replicate 1024 0) 0).2)

/-- The number that a list of decimal digits in ASCII denotes. -/
def decimal_value (text : List Nat) : Nat :=
  text.foldl (fun a c => 10 * a + (c - 48)) 0

/-- The text `text` is exactly `w` decimal digits whose value is `v`. -/
def decimal_field (w : Nat) (v : Int) (text : List Nat) : Prop :=
  text.length = w ∧ (∀ c ∈ text, 48 ≤ c ∧ c ≤ 57) ∧ (decimal_value text : Int) = v

/-- The array `buf` has `cap` bytes and holds a NUL. -/
def nul_terminated (cap : Nat) (buf : List Nat) : Prop :=
  buf.length = cap ∧ 0 ∈ buf

instance (cap : Nat) (buf : List Nat) : Decidable (nul_terminated cap buf) := by
  unfold nul_terminated
  infer_instance

/-- Both strings of a palette entry are NUL-terminated within their arrays. -/
def log_type_invariant (e : dilog_log_type_t) : Prop :=
  nul_terminated DILOG_MAX_TYPE_NAME e.type_name ∧ nul_terminated DILOG_MAX_COLOR_LEN e.color

instance (e : dilog_log_type_t) : Decidable (log_type_invariant e) := by
  unfold log_type_invariant
  infer_instance

/-- The bounds of a topic: at most 8 types, 8 palette slots, and every
string NUL-terminated within its array. -/
def topic_invariant (t : dilog_topic_t) : Prop :=
  t.type_count ≤ DILOG_MAX_TYPE_COUNT ∧ t.types.length = DILOG_MAX_TYPE_COUNT ∧
  nul_terminated DILOG_MAX_NAME_LEN t.name ∧ nul_terminated DILOG_MAX_FORMAT_LEN t.format ∧
  nul_terminated DILOG_MAX_TYPE_NAME t.default_type ∧
  ∀ e ∈ t.types, log_type_invariant e

instance (t : dilog_topic_t) : Decidable (topic_invariant t) := by
  unfold topic_invariant
  infer_instance

/-- The bounds of the registry: at most 16 topics, 16 topic slots, the default
topic name NUL-terminated, and every registered topic within its bounds. -/
def registry_invariant (s : dilog_context_t) : Prop :=
  s.topic_count ≤ DILOG_MAX_TOPICS ∧ s.topics.length = DILOG_MAX_TOPICS ∧
  nul_terminated DILOG_MAX_NAME_LEN s.default_topic ∧
  ∀ i, i < s.topic_count → topic_invariant (topic_at s i)

instance (s : dilog_context_t) : Decidable (registry_invariant s) := by
  unfold registry_invariant
  infer_instance

/-- The registries that a program reaches from the static `g_dilog_ctx` by
calls of `dilog_init`, `dilog` and `dilog_console_print` with any arguments at
any time; the flag tells whether `dilog_init` has run. -/
inductive reachable : Bool → dilog_context_t → Prop where
  | start : reachable false g_dilog_ctx
  | init {b : Bool} {s : dilog_context_t} : reachable b s → reachable true (dilog_init s)
  | log {b : Bool} {s : dilog_context_t} (ts : dilog_timestamp_t) (msg : Option (List Nat)) :
      reachable b s → reachable b (dilog s ts msg).1
  | print {b : Bool} {s : dilog_context_t} (ts : dilog_timestamp_t)
      (topic_name type message : Option (List Nat)) :
      reachable b s → reachable b (dilog_console_print s ts topic_name type message).1

/-- The value of `out_index` once the loop has gone through the units `toks`
from the value `n`: every unit adds the length of its text, and the loop
stops at the first value of 1023 or more. -/
def out_index_after (type message : List Nat) (ts : dilog_timestamp_t) :
    Nat → List token → Nat
  | n, [] => n
  | n, t :: rest =>
    if n < 1023 then out_index_after type message ts (n + (token_text type message ts t).length) rest
    else n

/-- A message of 1000 bytes `A`. -/
def long_message : List Nat := List.replicate 1000 65

/-! ## Lemmas on the C library models -/

theorem cstr_nil : cstr [] = [] := rfl

theorem cstr_cons_zero (l : List Nat) : cstr (0 :: l) = [] := rfl

theorem cstr_cons_ne (c : Nat) (l : List Nat) (h : c ≠ 0) : cstr (c :: l) = c :: cstr l := by
  simp [cstr, List.takeWhile_cons, h]

theorem strncmp_eq_zero_iff (n : Nat) :
    ∀ a b : List Nat, strncmp a b n = 0 ↔ (cstr a).take n = (cstr b).take n := by
  induction n with
  | zero => intro a b; simp [strncmp]
  | succ n ih =>
    intro a b
    rcases a with _ | ⟨x, xs⟩ <;> rcases b with _ | ⟨y, ys⟩
    · simp [strncmp, byte_at]
    · by_cases hy : y = 0
      · subst hy; simp [strncmp, byte_at, cstr_cons_zero, cstr_nil]
      · have h1 : (0 : Nat) ≠ y := fun h => hy h.symm
        have h2 : (0 : Int) - (y : Int) ≠ 0 := by omega
        simp [strncmp, byte_at, cstr_cons_ne y ys hy, cstr_nil, h1, h2, hy]
    · by_cases hx : x = 0
      · subst hx; simp [strncmp, byte_at, cstr_cons_zero, cstr_nil]
      · simp [strncmp, byte_at, cstr_cons_ne x xs hx, cstr_nil, hx]
    · by_cases hxy : x = y
      · subst hxy
        by_cases hx : x = 0
        · subst hx; simp [strncmp, byte_at, cstr_cons_zero]
        · simp [strncmp, byte_at, cstr_cons_ne x _ hx, hx, ih]
      · have h2 : (x : Int) - (y : Int) ≠ 0 := by omega
        by_cases hx : x = 0
        · subst hx
          have hy : y ≠ 0 := fun h => hxy h.symm
          simp [strncmp, byte_at, cstr_cons_zero, cstr_cons_ne y _ hy, hxy, h2, hy]
        · by_cases hy : y = 0
          · subst hy
            simp [strncmp, byte_at, cstr_cons_zero, cstr_cons_ne x _ hx, hxy, h2]
          · simp [strncmp, byte_at, cstr_cons_ne x _ hx, cstr_cons_ne y _ hy, hxy, h2]

theorem strncmp_name_iff (stored given : List Nat) :
    strncmp stored given DILOG_MAX_NAME_LEN = 0 ↔ names_agree stored given :=
  strncmp_eq_zero_iff DILOG_MAX_NAME_LEN stored given

/-! ## The topic lookup -/

theorem dilog_get_topic_loop_some (ctx : dilog_context_t) (nm : List Nat) (k : Nat) :
    ∀ i0 i : Nat, dilog_get_topic_loop ctx nm k i0 = some i ↔
      (i0 ≤ i ∧ i < i0 + k ∧ names_agree (topic_at ctx i).name nm ∧
        ∀ j, i0 ≤ j → j < i → ¬ names_agree (topic_at ctx j).name nm) := by
  induction k with
  | zero => intro i0 i; simp [dilog_get_topic_loop]; omega
  | succ k ih =>
    intro i0 i
    unfold dilog_get_topic_loop
    by_cases h : strncmp (topic_at ctx i0).name nm DILOG_MAX_NAME_LEN = 0
    · have ha := (strncmp_name_iff _ _).mp h
      simp only [h, if_true, Option.some.injEq]
      constructor
      · intro e; subst e
        exact ⟨le_refl _, by omega, ha, fun j h1 h2 => by omega⟩
      · rintro ⟨h1, _, _, h4⟩
        by_contra hne
        exact h4 i0 (le_refl _) (by omega) ha
    · have ha : ¬ names_agree (topic_at ctx i0).name nm := fun hh => h ((strncmp_name_iff _ _).mpr hh)
      simp only [h, if_false, ih]
      constructor
      · rintro ⟨h1, h2, h3, h4⟩
        refine ⟨by omega, by omega, h3, fun j hj1 hj2 => ?_⟩
        by_cases hj : j = i0
        · subst hj; exact ha
        · exact h4 j (by omega) hj2
      · rintro ⟨h1, h2, h3, h4⟩
        have hne : i ≠ i0 := by rintro rfl; exact ha h3
        exact ⟨by omega, by omega, h3, fun j hj1 hj2 => h4 j (by omega) hj2⟩

theorem dilog_get_topic_loop_none (ctx : dilog_context_t) (nm : List Nat) (k : Nat) :
    ∀ i0 : Nat, dilog_get_topic_loop ctx nm k i0 = none ↔
      ∀ j, i0 ≤ j → j < i0 + k → ¬ names_agree (topic_at ctx j).name nm := by
  induction k with
  | zero => intro i0; simp [dilog_get_topic_loop]; intro j h1 h2; omega
  | succ k ih =>
    intro i0
    unfold dilog_get_topic_loop
    by_cases h : strncmp (topic_at ctx i0).name nm DILOG_MAX_NAME_LEN = 0
    · have ha := (strncmp_name_iff _ _).mp h
      simp only [h, if_true]
      constructor
      · intro e; cases e
      · intro hall; exact absurd ha (hall i0 (le_refl _) (by omega))
    · have ha : ¬ names_agree (topic_at ctx i0).name nm := fun hh => h ((strncmp_name_iff _ _).mpr hh)
      simp only [h, if_false, ih]
      constructor
      · intro hall j hj1 hj2
        by_cases hj : j = i0
        · subst hj; exact ha
        · exact hall j (by omega) (by omega)
      · intro hall j hj1 hj2
        exact hall j (by omega) (by omega)

/-! ## Printing is silent without a topic -/

theorem dilog_console_print_fst (ctx : dilog_context_t) (ts : dilog_timestamp_t)
    (topic_name type message : Option (List Nat)) :
    (dilog_console_print ctx ts topic_name type message).1 = ctx := by
  unfold dilog_console_print
  split
  · split
    · rfl
    · split <;> rfl
  · rfl

theorem dilog_fst (ctx : dilog_context_t) (ts : dilog_timestamp_t) (log : Option (List Nat)) :
    (dilog ctx ts log).1 = ctx := by
  unfold dilog
  split
  · rfl
  · split
    · rfl
    · split
      · rfl
      · exact dilog_console_print_fst _ _ _ _ _

theorem dilog_get_topic_none_iff (ctx : dilog_context_t) (nm : List Nat) :
    dilog_get_topic ctx (some nm) = none ↔
      ∀ i, i < ctx.topic_count → ¬ names_agree (topic_at ctx i).name nm := by
  simp only [dilog_get_topic, dilog_get_topic_loop_none, Nat.zero_add]
  constructor
  · intro h i hi; exact h i (Nat.zero_le _) hi
  · intro h j _ hj; exact h j hj

theorem dilog_get_topic_some_iff (ctx : dilog_context_t) (nm : List Nat) (i : Nat) :
    dilog_get_topic ctx (some nm) = some i ↔
      (i < ctx.topic_count ∧ names_agree (topic_at ctx i).name nm ∧
        ∀ j, j < i → ¬ names_agree (topic_at ctx j).name nm) := by
  simp only [dilog_get_topic, dilog_get_topic_loop_some, Nat.zero_add]
  constructor
  · rintro ⟨_, h2, h3, h4⟩; exact ⟨h2, h3, fun j hj => h4 j (Nat.zero_le _) hj⟩
  · rintro ⟨h2, h3, h4⟩; exact ⟨Nat.zero_le _, h2, h3, fun j _ hj => h4 j hj⟩

/-! ## Colour parsing -/

theorem hex_digit_facts (c v : Nat) (h : hex_digit c = some v) :
    v < 16 ∧ isspace c = false ∧ c ≠ 45 ∧ c ≠ 43 ∧ c ≠ 120 ∧ c ≠ 88 ∧ c ≠ 0 := by
  unfold hex_digit at h
  split at h
  · simp at h; simp [isspace]; omega
  · split at h
    · simp at h; simp [isspace]; omega
    · split at h
      · simp at h; simp [isspace]; omega
      · cases h

theorem hex_accum_stop (tl : List Nat) (acc : Nat) (h : hex_digit (byte_at tl 0) = none) :
    hex_accum tl acc = acc := by
  cases tl with
  | nil => rfl
  | cons c r =>
    simp only [byte_at, List.getD_cons_zero] at h
    simp [hex_accum, h]

theorem hex_accum_append (ds : List Nat) (hds : ∀ d ∈ ds, (hex_digit d).isSome = true) :
    ∀ (tl : List Nat) (acc : Nat), hex_digit (byte_at tl 0) = none →
      hex_accum (ds ++ tl) acc = hex_accum ds acc := by
  induction ds with
  | nil => intro tl acc h; simpa [hex_accum] using hex_accum_stop tl acc h
  | cons d ds ih =>
    intro tl acc h
    have hd := hds d (List.mem_cons_self _ _)
    obtain ⟨v, hv⟩ := Option.isSome_iff_exists.mp hd
    simp only [List.cons_append, hex_accum, hv]
    exact ih (fun x hx => hds x (List.mem_cons_of_mem _ hx)) tl _ h

theorem hex_accum_zeros (n : Nat) (s : List Nat) : hex_accum (List.replicate n 48 ++ s) 0 = hex_accum s 0 := by
  induction n with
  | zero => simp
  | succ n ih =>
    have : hex_digit 48 = some 0 := by decide
    simp only [List.replicate_succ, List.cons_append, hex_accum, this]
    simpa using ih

theorem hex_accum_lt (ds : List Nat) (hds : ∀ d ∈ ds, (hex_digit d).isSome = true) :
    ∀ acc : Nat, hex_accum ds acc < (acc + 1) * 16 ^ ds.length := by
  induction ds with
  | nil => intro acc; simp [hex_accum]
  | cons d ds ih =>
    intro acc
    have hd := hds d (List.mem_cons_self _ _)
    obtain ⟨v, hv⟩ := Option.isSome_iff_exists.mp hd
    have hv16 := (hex_digit_facts d v hv).1
    simp only [hex_accum, hv, List.length_cons]
    have h1 := ih (fun x hx => hds x (List.mem_cons_of_mem _ hx)) (16 * acc + v)
    have h2 : (16 * acc + v + 1) * 16 ^ ds.length ≤ (acc + 1) * 16 ^ (ds.length + 1) := by
      rw [pow_succ]
      have : (acc + 1) * (16 ^ ds.length * 16) = (16 * acc + 16) * 16 ^ ds.length := by ring
      rw [this]
      exact Nat.mul_le_mul_right _ (by omega)
    omega

/-- `strtol` on a text that starts with neither white space, a sign nor a
`0x` lead-in is the value of its run of hexadecimal digits. -/
theorem strtol_base16_plain (s : List Nat) (hsp : isspace (byte_at s 0) = false)
    (hm : byte_at s 0 ≠ 45) (hp : byte_at s 0 ≠ 43)
    (hx : ¬ (byte_at s 0 = 48 ∧ (byte_at s 1 = 120 ∨ byte_at s 1 = 88) ∧
      (hex_digit (byte_at s 2)).isSome = true))
    (hb : (hex_accum s 0 : Int) ≤ LONG_MAX) :
    strtol_base16 s = (hex_accum s 0 : Nat) := by
  cases s with
  | nil => decide
  | cons c r =>
    simp only [byte_at, List.getD_cons_zero] at hsp hm hp
    have h1 : (c :: r).dropWhile isspace = c :: r := by simp [List.dropWhile_cons, hsp]
    unfold strtol_base16
    simp only [h1, List.head?_cons, Option.some.injEq, hm, hp, or_self, if_false]
    have hneg : (some c == some 45) = false := by simp [hm]
    simp only [hneg]
    simp only [Bool.false_eq_true, if_false]
    split
    · rename_i x h r2 heq
      simp only [List.cons.injEq] at heq
      obtain ⟨hc, hr⟩ := heq
      subst hr
      have hcond : ¬ ((x = 120 ∨ x = 88) ∧ (hex_digit h).isSome = true) := by
        intro hh
        apply hx
        simp [byte_at, hc, hh.1, hh.2]
      simp only [hcond, if_false]
      exact min_eq_right hb
    · exact min_eq_right hb


@[simp] theorem byte_at_nil (i : Nat) : byte_at [] i = 0 := by simp [byte_at]

@[simp] theorem byte_at_cons_zero (c : Nat) (r : List Nat) : byte_at (c :: r) 0 = c := by
  simp [byte_at]

@[simp] theorem byte_at_cons_succ (c : Nat) (r : List Nat) (i : Nat) :
    byte_at (c :: r) (i + 1) = byte_at r i := by
  simp [byte_at]

/-- `strtol` on a run `hs` of at most 15 hexadecimal digits followed by a
byte that is not one: the value of the run, unless the run is empty and
white space or a sign follows, or the run is `0` and `x` or `X` and a digit
follow. -/
theorem strtol_base16_hex_run (hs tl : List Nat)
    (hhs : ∀ d ∈ hs, (hex_digit d).isSome = true) (hlen : hs.length ≤ 15)
    (htl : hex_digit (byte_at tl 0) = none)
    (h0 : hs = [] → isspace (byte_at tl 0) = false ∧ byte_at tl 0 ≠ 45 ∧ byte_at tl 0 ≠ 43)
    (hx : hs = [48] → ¬ ((byte_at tl 0 = 120 ∨ byte_at tl 0 = 88) ∧
      (hex_digit (byte_at tl 1)).isSome = true)) :
    strtol_base16 (hs ++ tl) = (hex_accum hs 0 : Nat) := by
  have hb : (hex_accum (hs ++ tl) 0 : Int) ≤ LONG_MAX := by
    rw [hex_accum_append hs hhs tl 0 htl]
    have h1 := hex_accum_lt hs hhs 0
    have h2 : 16 ^ hs.length ≤ 16 ^ 15 := Nat.pow_le_pow_right (by decide) hlen
    have h3 : ((16 ^ 15 : Nat) : Int) ≤ LONG_MAX := by decide
    have h4 : hex_accum hs 0 < 16 ^ 15 := by omega
    omega
  rw [← hex_accum_append hs hhs tl 0 htl]
  rcases hs with _ | ⟨d, _ | ⟨d2, r⟩⟩
  · obtain ⟨a, b, c⟩ := h0 rfl
    apply strtol_base16_plain _ _ _ _ _ hb
    · simpa using a
    · simpa using b
    · simpa using c
    · rintro ⟨e, -, -⟩
      simp only [List.nil_append] at e
      rw [e] at htl
      exact absurd htl (by decide)
  · obtain ⟨v, hv⟩ := Option.isSome_iff_exists.mp (hhs d (List.mem_cons_self _ _))
    have hf := hex_digit_facts d v hv
    apply strtol_base16_plain _ _ _ _ _ hb
    · simpa using hf.2.1
    · simpa using hf.2.2.1
    · simpa using hf.2.2.2.1
    · rintro ⟨e, e2, e3⟩
      simp only [List.cons_append, List.nil_append, byte_at_cons_zero, byte_at_cons_succ] at e e2 e3
      subst e
      exact hx rfl ⟨e2, e3⟩
  · obtain ⟨v, hv⟩ := Option.isSome_iff_exists.mp (hhs d (List.mem_cons_self _ _))
    have hf := hex_digit_facts d v hv
    obtain ⟨v2, hv2⟩ := Option.isSome_iff_exists.mp
      (hhs d2 (List.mem_cons_of_mem _ (List.mem_cons_self _ _)))
    have hf2 := hex_digit_facts d2 v2 hv2
    apply strtol_base16_plain _ _ _ _ _ hb
    · simpa using hf.2.1
    · simpa using hf.2.2.1
    · simpa using hf.2.2.2.1
    · rintro ⟨-, e2, -⟩
      simp only [List.cons_append, byte_at_cons_zero, byte_at_cons_succ] at e2
      rcases e2 with e2 | e2
      · exact hf2.2.2.2.2.1 e2
      · exact hf2.2.2.2.2.2.1 e2

theorem rgb_of_value (v : Nat) (hv : v < 2 ^ 24) :
    (shift_mask (to_int (v : Int)) 16, shift_mask (to_int (v : Int)) 8,
      shift_mask (to_int (v : Int)) 0)
      = (((v / 65536 % 256 : Nat) : Int), ((v / 256 % 256 : Nat) : Int), ((v % 256 : Nat) : Int)) := by
  have hv2 : v < 16777216 := by simpa using hv
  have h1 : to_int (v : Int) = v := by
    unfold to_int
    norm_num
    omega
  simp only [h1, shift_mask]
  norm_num


theorem color_rgb_of_strtol (c : List Nat) (v : Nat) (hv : v < 2 ^ 24)
    (h : strtol_base16 (c.drop 1) = (v : Int)) :
    color_rgb c
      = (((v / 65536 % 256 : Nat) : Int), ((v / 256 % 256 : Nat) : Int), ((v % 256 : Nat) : Int)) := by
  unfold color_rgb
  rw [h]
  exact rgb_of_value v hv

theorem strtol_base16_pair (a b va vb : Nat) (ha : hex_digit a = some va)
    (hb : hex_digit b = some vb) : strtol_base16 [a, b] = ((16 * va + vb : Nat) : Int) := by
  have h := strtol_base16_hex_run [a, b] []
    (by intro d hd
        simp only [List.mem_cons, List.mem_singleton, List.not_mem_nil, or_false] at hd
        rcases hd with rfl | rfl
        · simp [ha]
        · simp [hb])
    (by simp) (by decide) (by simp) (by simp)
  simpa [hex_accum, ha, hb] using h

/-! ## The render buffer -/

theorem cstr_append_zeros (l : List Nat) (n : Nat) : cstr (l ++ List.replicate n 0) = cstr l := by
  induction l with
  | nil => cases n <;> simp [cstr, List.replicate_succ]
  | cons c l ih =>
    by_cases hc : c = 0
    · subst hc; simp [cstr_cons_zero]
    · simp only [List.cons_append, cstr_cons_ne c _ hc, ih]

theorem cstr_of_no_zero (l : List Nat) (h : ∀ c ∈ l, c ≠ 0) : cstr l = l := by
  induction l with
  | nil => rfl
  | cons c l ih =>
    rw [cstr_cons_ne c l (h c (List.mem_cons_self _ _)),
      ih (fun x hx => h x (List.mem_cons_of_mem _ hx))]

theorem cstr_no_zero (l : List Nat) : ∀ c ∈ cstr l, c ≠ 0 := by
  intro c hc
  have := List.mem_takeWhile_imp hc
  simpa using this

theorem write_text_at_end (acc text : List Nat) (n : Nat) (h : text.length < n) :
    write_bytes (acc ++ List.replicate n 0) acc.length (text ++ [0])
      = (acc ++ text) ++ List.replicate (n - text.length) 0 := by
  unfold write_bytes
  have h1 : List.take acc.length (acc ++ List.replicate n 0) = acc := by simp
  have h2 : List.drop (acc.length + (text ++ [0]).length) (acc ++ List.replicate n 0)
      = List.replicate (n - (text.length + 1)) 0 := by
    rw [List.drop_append_eq_append_drop, List.drop_eq_nil_of_le (by omega)]
    have : acc.length + (text ++ [0]).length - acc.length = text.length + 1 := by
      simp
    rw [this, List.drop_replicate, List.nil_append]
  rw [h1, h2]
  have h3 : n - text.length = (n - (text.length + 1)) + 1 := by omega
  rw [h3, List.replicate_succ]
  simp

theorem set_byte_at_end (acc : List Nat) (n c : Nat) (h : 0 < n) :
    (acc ++ List.replicate n 0).set acc.length c = (acc ++ [c]) ++ List.replicate (n - 1) 0 := by
  obtain ⟨m, rfl⟩ : ∃ m, n = m + 1 := ⟨n - 1, by omega⟩
  simp [List.set_append, List.replicate_succ]

theorem set_zero_at_end (acc : List Nat) (n : Nat) :
    (acc ++ List.replicate n 0).set acc.length 0 = acc ++ List.replicate n 0 := by
  cases n with
  | zero => simp [List.set_eq_of_length_le]
  | succ m => simp [List.set_append, List.replicate_succ]

/-- The render loop on a buffer that holds `acc` followed by NULs: when the
texts of the remaining units fit below index 1023, the loop leaves `acc`
followed by these texts and NULs, and `out_index` is the length of the whole
text. -/
theorem render_loop_fits (chain : List keyword) (fmt type message : List Nat)
    (ts : dilog_timestamp_t) (fuel : Nat) :
    ∀ (i : Nat) (acc : List Nat),
      acc.length + (concat_texts type message ts (tokenize chain fmt fuel i)).length ≤ 1023 →
      render_loop chain fmt type message ts fuel i
          (acc ++ List.replicate (1024 - acc.length) 0) acc.length
        = ((acc ++ concat_texts type message ts (tokenize chain fmt fuel i))
            ++ List.replicate
              (1024 - (acc ++ concat_texts type message ts (tokenize chain fmt fuel i)).length) 0,
           (acc ++ concat_texts type message ts (tokenize chain fmt fuel i)).length) := by
  induction fuel with
  | zero => intro i acc _; simp [render_loop, tokenize, concat_texts]
  | succ fuel ih =>
    intro i acc hfit
    unfold render_loop
    by_cases hz : byte_at fmt i = 0
    · simp [hz, tokenize, concat_texts]
    · by_cases hfull : acc.length < 1024 - 1
      · simp only [ne_eq, hz, not_false_eq_true, hfull, and_self, if_true]
        unfold tokenize at hfit ⊢
        simp only [hz, if_false] at hfit ⊢
        cases hm : first_match chain fmt i with
        | some k =>
          simp only [hm, concat_texts, token_text, List.length_append] at hfit
          simp only [hm, concat_texts, token_text]
          have hsz : 1024 - acc.length ≠ 0 := by omega
          have htake : (format_value type message ts k).take (1024 - acc.length - 1)
              = format_value type message ts k := List.take_of_length_le (by omega)
          simp only [snprintf, hsz, if_false, htake]
          rw [write_text_at_end acc _ _ (by omega)]
          have hlen : 1024 - acc.length - (format_value type message ts k).length
              = 1024 - (acc ++ format_value type message ts k).length := by
            simp only [List.length_append]; omega
          rw [hlen, ← List.length_append]
          rw [ih _ (acc ++ format_value type message ts k)
            (by simp only [List.length_append]; omega)]
          simp only [List.append_assoc]
        | none =>
          simp only [hm, concat_texts, token_text, List.length_append, List.length_singleton]
            at hfit
          simp only [hm, concat_texts, token_text]
          rw [set_byte_at_end acc _ _ (by omega)]
          have hlen : 1024 - acc.length - 1 = 1024 - (acc ++ [byte_at fmt i]).length := by
            simp only [List.length_append, List.length_singleton]; omega
          have hidx : acc.length + 1 = (acc ++ [byte_at fmt i]).length := by simp
          rw [hlen, hidx]
          rw [ih _ (acc ++ [byte_at fmt i])
            (by simp only [List.length_append, List.length_singleton]; omega)]
          simp only [List.append_assoc, List.singleton_append]
      · have hacc : acc.length = 1023 := by omega
        have hnil : concat_texts type message ts (tokenize chain fmt (fuel + 1) i) = [] :=
          List.length_eq_zero.mp (by omega)
        simp [hz, hfull, hnil]


/-! ## Decimal numerals -/

theorem dec_digits_loop_acc (fuel : Nat) :
    ∀ (n : Nat) (acc : List Nat),
      dec_digits_loop fuel n acc = dec_digits_loop fuel n [] ++ acc := by
  induction fuel with
  | zero => intro n acc; simp [dec_digits_loop]
  | succ fuel ih =>
    intro n acc
    unfold dec_digits_loop
    by_cases h : n < 10
    · simp [h]
    · simp only [h, if_false]
      rw [ih (n / 10) ((48 + n % 10) :: acc), ih (n / 10) [48 + n % 10]]
      simp

theorem dec_digits_loop_fuel (f1 : Nat) :
    ∀ (f2 n : Nat) (acc : List Nat), n < f1 → n < f2 →
      dec_digits_loop f1 n acc = dec_digits_loop f2 n acc := by
  induction f1 with
  | zero => intro f2 n acc h; omega
  | succ f1 ih =>
    intro f2 n acc h1 h2
    obtain ⟨g, rfl⟩ : ∃ g, f2 = g + 1 := ⟨f2 - 1, by omega⟩
    unfold dec_digits_loop
    by_cases h : n < 10
    · simp [h]
    · simp only [h, if_false]
      exact ih g (n / 10) _ (by omega) (by omega)

theorem dec_digits_lt_ten (n : Nat) (h : n < 10) : dec_digits n = [48 + n] := by
  simp [dec_digits, dec_digits_loop, h]

theorem dec_digits_ge_ten (n : Nat) (h : ¬ n < 10) :
    dec_digits n = dec_digits (n / 10) ++ [48 + n % 10] := by
  unfold dec_digits
  rw [dec_digits_loop]
  simp only [h, if_false]
  rw [dec_digits_loop_acc, dec_digits_loop_fuel n (n / 10 + 1) (n / 10) [] (by omega) (by omega)]

theorem dec_digits_no_zero (n : Nat) : ∀ c ∈ dec_digits n, c ≠ 0 := by
  induction n using Nat.strong_induction_on with
  | _ n ih =>
    by_cases h : n < 10
    · rw [dec_digits_lt_ten n h]; simp
    · rw [dec_digits_ge_ten n h]
      intro c hc
      rcases List.mem_append.mp hc with hc | hc
      · exact ih (n / 10) (by omega) c hc
      · simp at hc; omega

theorem zero_padded_zero (w : Nat) : zero_padded w 0 = List.replicate w 48 := by
  induction w with
  | zero => rfl
  | succ w ih =>
    simp only [zero_padded, Nat.zero_div, ih, Nat.zero_mod, Nat.add_zero]
    rw [List.replicate_succ']

theorem zero_padded_length (w : Nat) : ∀ n, (zero_padded w n).length = w := by
  induction w with
  | zero => intro n; rfl
  | succ w ih => intro n; simp [zero_padded, ih]

/-- The numeral of `n < 10 ^ w`, padded with zeros to the width `w ≥ 1`, is
the `w`-digit numeral of `n`. -/
theorem pad_dec_digits (w : Nat) :
    ∀ n, n < 10 ^ (w + 1) →
      List.replicate (w + 1 - (dec_digits n).length) 48 ++ dec_digits n = zero_padded (w + 1) n := by
  induction w with
  | zero =>
    intro n hn
    have h : n < 10 := by simpa using hn
    simp [dec_digits_lt_ten n h, zero_padded, Nat.mod_eq_of_lt h]
  | succ w ih =>
    intro n hn
    by_cases h : n < 10
    · rw [dec_digits_lt_ten n h]
      simp only [List.length_singleton, Nat.add_sub_cancel]
      rw [zero_padded, Nat.div_eq_of_lt h, zero_padded_zero, Nat.mod_eq_of_lt h]
    · rw [dec_digits_ge_ten n h]
      have hq : n / 10 < 10 ^ (w + 1) := by
        rw [Nat.div_lt_iff_lt_mul (by decide)]
        rw [pow_succ] at hn
        exact hn
      have := ih (n / 10) hq
      rw [zero_padded, ← this]
      simp only [List.length_append, List.length_singleton, Nat.add_sub_add_right,
        List.append_assoc]

theorem printf_0d_eq_zero_padded (w : Nat) (v : Int) (h0 : 0 ≤ v) (h1 : v < 10 ^ (w + 1)) :
    printf_0d (w + 1) v = zero_padded (w + 1) v.toNat := by
  have hneg : ¬ v < 0 := by omega
  have hn : v.natAbs = v.toNat := by omega
  unfold printf_0d
  simp only [hneg, if_false, hn]
  apply pad_dec_digits
  have : ((v.toNat : Nat) : Int) < ((10 ^ (w + 1) : Nat) : Int) := by
    rw [Int.toNat_of_nonneg h0]; exact_mod_cast h1
  exact_mod_cast this

theorem printf_0d_no_zero (w : Nat) (v : Int) : ∀ c ∈ printf_0d w v, c ≠ 0 := by
  intro c hc
  unfold printf_0d at hc
  split at hc
  · simp only [List.mem_cons, List.mem_append] at hc
    rcases hc with hc | hc | hc
    · omega
    · have := (List.mem_replicate.mp hc).2; omega
    · exact dec_digits_no_zero _ c hc
  · simp only [List.mem_append] at hc
    rcases hc with hc | hc
    · have := (List.mem_replicate.mp hc).2; omega
    · exact dec_digits_no_zero _ c hc

/-! ## The rendered line -/

theorem format_value_no_zero (type message : List Nat) (ts : dilog_timestamp_t) (k : keyword) :
    ∀ c ∈ format_value type message ts k, c ≠ 0 := by
  cases k <;> simp only [format_value] <;>
    first
      | exact printf_0d_no_zero _ _
      | exact cstr_no_zero _

theorem concat_texts_no_zero (chain : List keyword) (fmt type message : List Nat)
    (ts : dilog_timestamp_t) (fuel : Nat) :
    ∀ i, ∀ c ∈ concat_texts type message ts (tokenize chain fmt fuel i), c ≠ 0 := by
  induction fuel with
  | zero => intro i c hc; simp [tokenize, concat_texts] at hc
  | succ fuel ih =>
    intro i c hc
    unfold tokenize at hc
    by_cases hz : byte_at fmt i = 0
    · simp [hz, concat_texts] at hc
    · simp only [hz, if_false] at hc
      cases hm : first_match chain fmt i with
      | some k =>
        simp only [hm, concat_texts, token_text, List.mem_append] at hc
        rcases hc with hc | hc
        · exact format_value_no_zero _ _ _ k c hc
        · exact ih _ c hc
      | none =>
        simp only [hm, concat_texts, token_text, List.mem_append, List.mem_singleton] at hc
        rcases hc with hc | hc
        · rw [hc]; exact hz
        · exact ih _ c hc

/-- When the unlimited rendering fits in 1023 bytes, the buffer that `render`
leaves holds exactly that rendering as its C string, and `out_index` is its
length. -/
theorem render_fits (fmt type message : List Nat) (ts : dilog_timestamp_t)
    (hfit : (reference_render fmt type message ts).length ≤ 1023) :
    cstr (render fmt type message ts).1 = reference_render fmt type message ts ∧
    (render fmt type message ts).2 = (reference_render fmt type message ts).length := by
  have h := render_loop_fits match_and_write_chain fmt type message ts (fmt.length + 1) 0 []
    (by simpa [reference_render] using hfit)
  simp only [List.nil_append, List.length_nil, Nat.sub_zero] at h
  unfold render
  simp only [h]
  refine ⟨?_, rfl⟩
  rw [set_zero_at_end, cstr_append_zeros]
  exact cstr_of_no_zero _ (concat_texts_no_zero _ _ _ _ _ _ 0)

/-! ## The palette lookup and the printing path -/

theorem strncmp_type_iff (stored given : List Nat) :
    strncmp stored given DILOG_MAX_TYPE_NAME = 0 ↔ types_agree stored given :=
  strncmp_eq_zero_iff DILOG_MAX_TYPE_NAME stored given

theorem color_code_loop_none (topic : dilog_topic_t) (type : List Nat) (k : Nat) :
    ∀ i0 : Nat, color_code_loop topic type k i0 = none ↔
      ∀ j, i0 ≤ j → j < i0 + k → ¬ types_agree (type_at topic j).type_name type := by
  induction k with
  | zero => intro i0; simp [color_code_loop]; intro j h1 h2; omega
  | succ k ih =>
    intro i0
    unfold color_code_loop
    by_cases h : strncmp (type_at topic i0).type_name type DILOG_MAX_TYPE_NAME = 0
    · have ha := (strncmp_type_iff _ _).mp h
      simp only [h, if_true]
      constructor
      · intro e; cases e
      · intro hall; exact absurd ha (hall i0 (le_refl _) (by omega))
    · have ha : ¬ types_agree (type_at topic i0).type_name type :=
        fun hh => h ((strncmp_type_iff _ _).mpr hh)
      simp only [h, if_false, ih]
      constructor
      · intro hall j hj1 hj2
        by_cases hj : j = i0
        · subst hj; exact ha
        · exact hall j (by omega) (by omega)
      · intro hall j hj1 hj2
        exact hall j (by omega) (by omega)

theorem dilog_console_print_eq (ctx : dilog_context_t) (ts : dilog_timestamp_t)
    (topic_name : Option (List Nat)) (ty msg : List Nat) (t : dilog_topic_t)
    (hres : resolve_topic ctx topic_name = some t) (hon : t.terminal_output = true) :
    dilog_console_print ctx ts topic_name (some ty) (some msg)
      = (ctx, print_output (color_code_loop t ty t.type_count 0) (render t.format ty msg ts).1) := by
  simp [dilog_console_print, hres, hon]

/-! ## Templates without keywords -/

theorem byte_at_cstr (s : List Nat) :
    ∀ i, i < (cstr s).length → byte_at s i = byte_at (cstr s) i ∧ byte_at s i ≠ 0 := by
  induction s with
  | nil => intro i h; simp [cstr_nil] at h
  | cons c s ih =>
    intro i h
    by_cases hc : c = 0
    · subst hc; simp [cstr_cons_zero] at h
    · rw [cstr_cons_ne c s hc] at h ⊢
      cases i with
      | zero => simp [hc]
      | succ i =>
        simp only [byte_at_cons_succ]
        exact ih i (by simpa using h)

theorem byte_at_cstr_length (s : List Nat) : byte_at s (cstr s).length = 0 := by
  induction s with
  | nil => simp
  | cons c s ih =>
    by_cases hc : c = 0
    · subst hc; simp [cstr_cons_zero]
    · rw [cstr_cons_ne c s hc]
      simpa using ih

theorem cstr_drop (s : List Nat) :
    ∀ i, i ≤ (cstr s).length → cstr (s.drop i) = (cstr s).drop i := by
  induction s with
  | nil => intro i _; simp [cstr_nil]
  | cons c s ih =>
    intro i h
    cases i with
    | zero => simp
    | succ i =>
      by_cases hc : c = 0
      · subst hc; simp [cstr_cons_zero] at h
      · rw [cstr_cons_ne c s hc] at h ⊢
        simp only [List.drop_succ_cons]
        exact ih i (by simpa using h)

theorem cstr_length_le (s : List Nat) : (cstr s).length ≤ s.length := by
  unfold cstr
  exact (List.takeWhile_sublist _).length_le

theorem cstr_KEYWORD (k : keyword) : cstr (KEYWORD k) = KEYWORD k := by
  cases k <;> decide

theorem keyword_occurs_of_matches (fmt : List Nat) (i : Nat) (k : keyword)
    (hi : i ≤ (cstr fmt).length) (hm : keyword_matches fmt i k = true) :
    KEYWORD k <:+: cstr fmt := by
  unfold keyword_matches at hm
  have h0 : strncmp (fmt.drop i) (KEYWORD k) (KEYWORD k).length = 0 := by simpa using hm
  rw [strncmp_eq_zero_iff, cstr_KEYWORD, List.take_length, cstr_drop fmt i hi] at h0
  rw [← h0]
  exact (List.take_prefix _ _).isInfix.trans (List.drop_suffix _ _).isInfix

theorem first_match_none_of_no_keyword (fmt : List Nat) (i : Nat)
    (hno : ∀ k ∈ match_and_write_chain, ¬ (KEYWORD k <:+: cstr fmt))
    (hi : i ≤ (cstr fmt).length) : first_match match_and_write_chain fmt i = none := by
  unfold first_match
  rw [List.find?_eq_none]
  intro k hk hm
  exact hno k hk (keyword_occurs_of_matches fmt i k hi hm)

theorem tokenize_no_keyword (fmt type message : List Nat) (ts : dilog_timestamp_t)
    (hno : ∀ k ∈ match_and_write_chain, ¬ (KEYWORD k <:+: cstr fmt)) (fuel : Nat) :
    ∀ i, i ≤ (cstr fmt).length → (cstr fmt).length - i < fuel →
      concat_texts type message ts (tokenize match_and_write_chain fmt fuel i)
        = (cstr fmt).drop i := by
  induction fuel with
  | zero => intro i _ h; omega
  | succ fuel ih =>
    intro i hi hf
    unfold tokenize
    by_cases hz : byte_at fmt i = 0
    · have : i = (cstr fmt).length := by
        by_contra hne
        exact (byte_at_cstr fmt i (by omega)).2 hz
      simp only [hz, if_true, concat_texts]
      rw [this, List.drop_length]
    · have hlt : i < (cstr fmt).length := by
        by_contra hge
        have : i = (cstr fmt).length := by omega
        rw [this] at hz
        exact hz (byte_at_cstr_length fmt)
      simp only [hz, if_false, first_match_none_of_no_keyword fmt i hno hi, concat_texts,
        token_text]
      rw [ih (i + 1) (by omega) (by omega), (byte_at_cstr fmt i hlt).1]
      rw [List.drop_eq_getElem_cons hlt]
      simp [byte_at, List.getD_eq_getElem?_getD, List.getElem?_eq_getElem hlt]


theorem reference_render_no_keyword (fmt type message : List Nat) (ts : dilog_timestamp_t)
    (hno : ∀ k ∈ match_and_write_chain, ¬ (KEYWORD k <:+: cstr fmt)) :
    reference_render fmt type message ts = cstr fmt := by
  unfold reference_render
  rw [tokenize_no_keyword fmt type message ts hno (fmt.length + 1) 0 (Nat.zero_le _)
    (by have := cstr_length_le fmt; omega)]
  rfl

/-! ## The default line -/

set_option maxRecDepth 1000000 in
theorem tokenize_default_format :
    tokenize match_and_write_chain (topic_at (dilog_init g_dilog_ctx) 0).format
        ((topic_at (dilog_init g_dilog_ctx) 0).format.length + 1) 0
      = [token.lit 91, token.key keyword.year, token.lit 45, token.key keyword.month,
         token.lit 45, token.key keyword.day, token.lit 32, token.key keyword.hour,
         token.lit 58, token.key keyword.minute, token.lit 58, token.key keyword.second,
         token.lit 46, token.key keyword.ms, token.lit 93, token.lit 32, token.lit 60,
         token.key keyword.type, token.lit 62, token.lit 58, token.lit 32,
         token.key keyword.log] := by
  decide

theorem reference_render_default (m : List Nat) (ts : dilog_timestamp_t)
    (hy : 0 ≤ ts.year ∧ ts.year ≤ 9999) (hmo : 0 ≤ ts.month ∧ ts.month ≤ 99)
    (hd : 0 ≤ ts.day ∧ ts.day ≤ 99) (hh : 0 ≤ ts.hour ∧ ts.hour ≤ 99)
    (hmi : 0 ≤ ts.minute ∧ ts.minute ≤ 99) (hs : 0 ≤ ts.second ∧ ts.second ≤ 99)
    (hms : 0 ≤ ts.ms ∧ ts.ms ≤ 999) :
    reference_render (topic_at (dilog_init g_dilog_ctx) 0).format
        (topic_at (dilog_init g_dilog_ctx) 0).default_type m ts
      = default_line ts m := by
  have hty : cstr (topic_at (dilog_init g_dilog_ctx) 0).default_type = [105, 110, 102, 111] := by
    decide
  have b1 : bytes "[" = [91] := by decide
  have b2 : bytes "-" = [45] := by decide
  have b3 : bytes " " = [32] := by decide
  have b4 : bytes ":" = [58] := by decide
  have b5 : bytes "." = [46] := by decide
  have b6 : bytes "] <info>: " = [93, 32, 60, 105, 110, 102, 111, 62, 58, 32] := by decide
  unfold reference_render
  rw [tokenize_default_format]
  simp only [concat_texts, token_text, format_value, hty, default_line, b1, b2, b3, b4, b5, b6]
  rw [printf_0d_eq_zero_padded 3 ts.year hy.1 (by norm_num; omega),
    printf_0d_eq_zero_padded 1 ts.month hmo.1 (by norm_num; omega),
    printf_0d_eq_zero_padded 1 ts.day hd.1 (by norm_num; omega),
    printf_0d_eq_zero_padded 1 ts.hour hh.1 (by norm_num; omega),
    printf_0d_eq_zero_padded 1 ts.minute hmi.1 (by norm_num; omega),
    printf_0d_eq_zero_padded 1 ts.second hs.1 (by norm_num; omega),
    printf_0d_eq_zero_padded 2 ts.ms hms.1 (by norm_num; omega)]
  simp only [List.append_assoc, List.singleton_append, List.cons_append, List.nil_append,
    List.append_nil]

/-! ## The iteration bound of the render loop is enough -/

theorem byte_at_of_length_le (s : List Nat) (i : Nat) (h : s.length ≤ i) : byte_at s i = 0 := by
  simp [byte_at, List.getD_eq_getElem?_getD, List.getElem?_eq_none h]

theorem KEYWORD_length_pos (k : keyword) : 0 < (KEYWORD k).length := by
  cases k <;> decide

/-- More iterations than `fmt.length + 1 - i` change nothing: the loop has
reached its exit within the bound that `render` gives it. -/
theorem render_loop_fuel (chain : List keyword) (fmt type message : List Nat)
    (ts : dilog_timestamp_t) (extra fuel : Nat) :
    ∀ (i : Nat) (output : List Nat) (out_index : Nat), fmt.length < fuel + i →
      render_loop chain fmt type message ts (fuel + extra) i output out_index
        = render_loop chain fmt type message ts fuel i output out_index := by
  induction fuel with
  | zero =>
    intro i output out_index h
    have hz : byte_at fmt i = 0 := byte_at_of_length_le fmt i (by omega)
    cases extra with
    | zero => rfl
    | succ e => simp [render_loop, hz]
  | succ fuel ih =>
    intro i output out_index h
    rw [Nat.add_right_comm]
    unfold render_loop
    by_cases hc : byte_at fmt i ≠ 0 ∧ out_index < 1024 - 1
    · rw [if_pos hc, if_pos hc]
      cases hm : first_match chain fmt i with
      | some k =>
        have := KEYWORD_length_pos k
        dsimp only
        apply ih
        omega
      | none =>
        dsimp only
        apply ih
        omega
    · rw [if_neg hc, if_neg hc]

/-! ## Single keyword templates -/

theorem tokenize_KEYWORD (k : keyword) :
    tokenize match_and_write_chain (KEYWORD k) ((KEYWORD k).length + 1) 0 = [token.key k] := by
  cases k <;> decide

theorem reference_render_KEYWORD (k : keyword) (type message : List Nat)
    (ts : dilog_timestamp_t) :
    reference_render (KEYWORD k) type message ts = format_value type message ts k := by
  unfold reference_render
  rw [tokenize_KEYWORD]
  simp [concat_texts, token_text]

/-! ## Fixed width decimal fields -/

theorem decimal_value_append (l : List Nat) (c : Nat) :
    decimal_value (l ++ [c]) = 10 * decimal_value l + (c - 48) := by
  simp [decimal_value, List.foldl_append]

theorem decimal_value_zero_padded (w : Nat) :
    ∀ n, decimal_value (zero_padded w n) = n % 10 ^ w := by
  induction w with
  | zero => intro n; simp [zero_padded, decimal_value, Nat.mod_one]
  | succ w ih =>
    intro n
    rw [zero_padded, decimal_value_append, ih, pow_succ, Nat.mul_comm (10 ^ w) 10, Nat.mod_mul]
    omega

theorem zero_padded_digits (w : Nat) :
    ∀ n, ∀ c ∈ zero_padded w n, 48 ≤ c ∧ c ≤ 57 := by
  induction w with
  | zero => intro n c hc; simp [zero_padded] at hc
  | succ w ih =>
    intro n c hc
    rw [zero_padded] at hc
    rcases List.mem_append.mp hc with hc | hc
    · exact ih _ c hc
    · simp at hc; omega

theorem decimal_field_printf_0d (w : Nat) (v : Int) (h0 : 0 ≤ v) (h1 : v < 10 ^ (w + 1)) :
    decimal_field (w + 1) v (printf_0d (w + 1) v) := by
  rw [printf_0d_eq_zero_padded w v h0 h1]
  refine ⟨zero_padded_length _ _, zero_padded_digits _ _, ?_⟩
  rw [decimal_value_zero_padded]
  have hlt : v.toNat < 10 ^ (w + 1) := by
    have : ((v.toNat : Nat) : Int) < ((10 ^ (w + 1) : Nat) : Int) := by
      rw [Int.toNat_of_nonneg h0]; exact_mod_cast h1
    exact_mod_cast this
  rw [Nat.mod_eq_of_lt hlt]
  exact Int.toNat_of_nonneg h0

/-! ## At most one keyword matches at a position -/

theorem KEYWORD_no_proper_start (k k2 : keyword) (h : KEYWORD k <+: KEYWORD k2) : k = k2 := by
  cases k <;> cases k2 <;> first | rfl | exact absurd h (by decide)

theorem keyword_matches_iff (fmt : List Nat) (i : Nat) (k : keyword) :
    keyword_matches fmt i k = true ↔ KEYWORD k <+: cstr (fmt.drop i) := by
  unfold keyword_matches
  rw [beq_iff_eq, strncmp_eq_zero_iff, cstr_KEYWORD, List.take_length, List.prefix_iff_eq_take]
  exact eq_comm

theorem keyword_matches_unique (fmt : List Nat) (i : Nat) (k k2 : keyword)
    (h1 : keyword_matches fmt i k = true) (h2 : keyword_matches fmt i k2 = true) : k = k2 := by
  rw [keyword_matches_iff] at h1 h2
  rcases List.prefix_or_prefix_of_prefix h1 h2 with h | h
  · exact KEYWORD_no_proper_start k k2 h
  · exact (KEYWORD_no_proper_start k2 k h).symm

theorem mem_match_and_write_chain (k : keyword) : k ∈ match_and_write_chain := by
  cases k <;> decide

theorem first_match_eq_some (chain : List keyword) (fmt : List Nat) (i : Nat) (k : keyword)
    (hk : k ∈ chain) (hm : keyword_matches fmt i k = true) :
    first_match chain fmt i = some k := by
  unfold first_match
  cases hf : List.find? (keyword_matches fmt i) chain with
  | none =>
    rw [List.find?_eq_none] at hf
    exact absurd hm (hf k hk)
  | some k2 =>
    have h2 := List.find?_some hf
    rw [keyword_matches_unique fmt i k2 k h2 hm]

theorem first_match_perm (chain chain2 : List keyword) (hp : List.Perm chain chain2)
    (fmt : List Nat) (i : Nat) : first_match chain fmt i = first_match chain2 fmt i := by
  cases hf : first_match chain2 fmt i with
  | none =>
    unfold first_match at hf ⊢
    rw [List.find?_eq_none] at hf ⊢
    intro x hx
    exact hf x (hp.mem_iff.mp hx)
  | some k =>
    unfold first_match at hf
    have hk := List.mem_of_find?_eq_some hf
    have hm := List.find?_some hf
    exact first_match_eq_some chain fmt i k (hp.mem_iff.mpr hk) hm

theorem render_loop_perm (chain chain2 : List keyword) (hp : List.Perm chain chain2)
    (fmt type message : List Nat) (ts : dilog_timestamp_t) (fuel : Nat) :
    ∀ (i : Nat) (output : List Nat) (out_index : Nat),
      render_loop chain fmt type message ts fuel i output out_index
        = render_loop chain2 fmt type message ts fuel i output out_index := by
  induction fuel with
  | zero => intro i output out_index; rfl
  | succ fuel ih =>
    intro i output out_index
    unfold render_loop
    rw [first_match_perm chain chain2 hp fmt i]
    simp only [ih]

theorem render_with_source_order (fmt type message : List Nat) (ts : dilog_timestamp_t) :
    render_with match_and_write_chain fmt type message ts = render fmt type message ts := rfl

/-! ## A keyword at a position that the scan reaches -/

theorem occurs_position_lt (fmt : List Nat) (p : Nat) (k : keyword)
    (hocc : KEYWORD k <+: (cstr fmt).drop p) : p < (cstr fmt).length := by
  by_contra h
  rw [List.drop_eq_nil_of_le (by omega)] at hocc
  have := KEYWORD_length_pos k
  rw [List.prefix_nil.mp hocc] at this
  simp at this

theorem keyword_matches_of_occurs (fmt : List Nat) (p : Nat) (k : keyword)
    (hocc : KEYWORD k <+: (cstr fmt).drop p) : keyword_matches fmt p k = true := by
  have hp := occurs_position_lt fmt p k hocc
  rw [keyword_matches_iff, cstr_drop fmt p (by omega)]
  exact hocc

theorem snprintf_snd (output : List Nat) (out_index size : Nat) (text : List Nat) :
    (snprintf output out_index size text).2 = text.length := by
  unfold snprintf
  split <;> rfl

/-! ## Names within the comparison cap -/

theorem cstr_length_lt_of_nul (buf : List Nat) (h : 0 ∈ buf) : (cstr buf).length < buf.length := by
  induction buf with
  | nil => simp at h
  | cons c r ih =>
    by_cases hc : c = 0
    · subst hc; simp [cstr_cons_zero]
    · rw [cstr_cons_ne c r hc]
      have hr : 0 ∈ r := by
        rcases List.mem_cons.mp h with h | h
        · exact absurd h.symm hc
        · exact h
      have := ih hr
      simp only [List.length_cons]
      omega

theorem names_agree_iff_eq (stored given : List Nat) (h : (cstr stored).length ≤ 31) :
    names_agree stored given ↔ cstr stored = cstr given := by
  unfold names_agree DILOG_MAX_NAME_LEN
  rw [List.take_of_length_le (by omega)]
  constructor
  · intro e
    have hl := congrArg List.length e
    rw [List.length_take] at hl
    have hg : (cstr given).length ≤ 32 := by omega
    rw [e, List.take_of_length_le hg]
  · intro e
    rw [← e, List.take_of_length_le (by omega)]

theorem names_agree_length (stored given : List Nat) (h : (cstr stored).length ≤ 31)
    (ha : names_agree stored given) : (cstr given).length ≤ 31 := by
  rw [← (names_agree_iff_eq stored given h).mp ha]
  exact h

/-! ## The reachable registries -/

theorem dilog_init_of_pos (s : dilog_context_t) (h : 0 < s.topic_count) : dilog_init s = s := by
  unfold dilog_init
  simp [h]

theorem reachable_cases (b : Bool) (s : dilog_context_t) (h : reachable b s) :
    (b = false ∧ s = g_dilog_ctx) ∨ (b = true ∧ s = dilog_init g_dilog_ctx) := by
  induction h with
  | start => exact Or.inl ⟨rfl, rfl⟩
  | init _ ih =>
    rcases ih with ⟨_, rfl⟩ | ⟨_, rfl⟩
    · exact Or.inr ⟨rfl, rfl⟩
    · exact Or.inr ⟨rfl, dilog_init_of_pos _ (by decide)⟩
  | log ts msg _ ih =>
    rw [dilog_fst]
    exact ih
  | print ts topic_name type message _ ih =>
    rw [dilog_console_print_fst]
    exact ih

/-! ## Truncation at the end of the buffer -/

theorem render_loop_full (chain : List keyword) (fmt type message : List Nat)
    (ts : dilog_timestamp_t) (fuel i : Nat) (output : List Nat) (out_index : Nat)
    (h : 1023 ≤ out_index) :
    render_loop chain fmt type message ts fuel i output out_index = (output, out_index) := by
  cases fuel with
  | zero => rfl
  | succ fuel =>
    rw [render_loop, if_neg]
    intro hc
    omega

theorem tokenize_fuel (chain : List keyword) (fmt : List Nat) (extra fuel : Nat) :
    ∀ i : Nat, fmt.length < fuel + i →
      tokenize chain fmt (fuel + extra) i = tokenize chain fmt fuel i := by
  induction fuel with
  | zero =>
    intro i h
    have hz : byte_at fmt i = 0 := byte_at_of_length_le fmt i (by omega)
    cases extra with
    | zero => rfl
    | succ e => simp [tokenize, hz]
  | succ fuel ih =>
    intro i h
    rw [Nat.add_right_comm]
    unfold tokenize
    by_cases hz : byte_at fmt i = 0
    · rw [if_pos hz, if_pos hz]
    · rw [if_neg hz, if_neg hz]
      cases hm : first_match chain fmt i with
      | some k =>
        have := KEYWORD_length_pos k
        dsimp only
        rw [ih]
        omega
      | none =>
        dsimp only
        rw [ih]
        omega

theorem set_zero_in_zeros (n : Nat) : ∀ j : Nat, (List.replicate n 0).set j 0 = List.replicate n 0 := by
  induction n with
  | zero => intro j; simp
  | succ n ih =>
    intro j
    cases j with
    | zero => simp [List.replicate_succ]
    | succ j => simp [List.replicate_succ, ih]

theorem set_zero_beyond (text : List Nat) (n : Nat) :
    ∀ j : Nat, text.length ≤ j →
      (text ++ List.replicate n 0).set j 0 = text ++ List.replicate n 0 := by
  induction text with
  | nil => intro j _; rw [List.nil_append]; exact set_zero_in_zeros n j
  | cons c r ih =>
    intro j hj
    obtain ⟨m, rfl⟩ : ∃ m, j = m + 1 := ⟨j - 1, by simp at hj; omega⟩
    simp only [List.cons_append, List.set_cons_succ]
    rw [ih m (by simp at hj; omega)]

/-- The render loop on a buffer that holds `acc` followed by NULs leaves the
first 1023 bytes of `acc` followed by the texts of the remaining units, then
NULs; `out_index` is at least the length of that text. -/
theorem render_loop_truncates (chain : List keyword) (fmt type message : List Nat)
    (ts : dilog_timestamp_t) (fuel : Nat) :
    ∀ (i : Nat) (acc : List Nat), acc.length ≤ 1023 →
      (render_loop chain fmt type message ts fuel i
          (acc ++ List.replicate (1024 - acc.length) 0) acc.length).1
        = (acc ++ concat_texts type message ts (tokenize chain fmt fuel i)).take 1023
          ++ List.replicate (1024 -
            ((acc ++ concat_texts type message ts (tokenize chain fmt fuel i)).take 1023).length) 0 ∧
      ((acc ++ concat_texts type message ts (tokenize chain fmt fuel i)).take 1023).length
        ≤ (render_loop chain fmt type message ts fuel i
          (acc ++ List.replicate (1024 - acc.length) 0) acc.length).2 := by
  induction fuel with
  | zero =>
    intro i acc hacc
    simp only [render_loop, tokenize, concat_texts, List.append_nil]
    rw [List.take_of_length_le hacc]
    exact ⟨rfl, le_refl _⟩
  | succ fuel ih =>
    intro i acc hacc
    by_cases hz : byte_at fmt i = 0
    · rw [render_loop, if_neg (by intro hc; exact hc.1 hz), tokenize, if_pos hz]
      simp only [concat_texts, List.append_nil]
      rw [List.take_of_length_le hacc]
      exact ⟨rfl, le_refl _⟩
    · by_cases hfull : acc.length < 1024 - 1
      · rw [render_loop, if_pos ⟨hz, hfull⟩, tokenize, if_neg hz]
        cases hm : first_match chain fmt i with
        | some k =>
          simp only [concat_texts, token_text, snprintf_snd]
          have hsz : 1024 - acc.length ≠ 0 := by omega
          simp only [snprintf, hsz, if_false]
          by_cases hroom : acc.length + (format_value type message ts k).length < 1023
          · have htake : (format_value type message ts k).take (1024 - acc.length - 1)
                = format_value type message ts k := List.take_of_length_le (by omega)
            rw [htake, write_text_at_end acc _ _ (by omega)]
            have hlen : 1024 - acc.length - (format_value type message ts k).length
                = 1024 - (acc ++ format_value type message ts k).length := by
              simp only [List.length_append]; omega
            rw [hlen, ← List.length_append, ← List.append_assoc]
            exact ih _ (acc ++ format_value type message ts k)
              (by simp only [List.length_append]; omega)
          · have hcut : ((format_value type message ts k).take (1024 - acc.length - 1)).length
                = 1023 - acc.length := by
              rw [List.length_take]; omega
            rw [write_text_at_end acc _ _ (by omega), hcut]
            rw [render_loop_full _ _ _ _ _ _ _ _ _ (by omega)]
            have hT : (acc ++ (format_value type message ts k
                ++ concat_texts type message ts
                  (tokenize chain fmt fuel (i + (KEYWORD k).length)))).take 1023
                = acc ++ (format_value type message ts k).take (1024 - acc.length - 1) := by
              rw [List.take_append_eq_append_take, List.take_of_length_le (by omega),
                List.take_append_eq_append_take]
              have h0 : 1023 - acc.length - (format_value type message ts k).length = 0 := by
                omega
              have h1 : 1024 - acc.length - 1 = 1023 - acc.length := by omega
              rw [h0, List.take_zero, List.append_nil, h1]
            rw [hT]
            constructor
            · simp only [List.length_append, hcut]
              have : 1024 - acc.length - (1023 - acc.length) = 1024 - (acc.length + (1023 - acc.length)) := by
                omega
              rw [this]
            · simp only [List.length_append, hcut]
              omega
        | none =>
          simp only [concat_texts, token_text]
          rw [set_byte_at_end acc _ _ (by omega)]
          have hlen : 1024 - acc.length - 1 = 1024 - (acc ++ [byte_at fmt i]).length := by
            simp only [List.length_append, List.length_singleton]; omega
          have hidx : acc.length + 1 = (acc ++ [byte_at fmt i]).length := by simp
          rw [hlen, hidx, ← List.append_assoc]
          exact ih _ (acc ++ [byte_at fmt i])
            (by simp only [List.length_append, List.length_singleton]; omega)
      · have hacc2 : acc.length = 1023 := by omega
        rw [render_loop, if_neg (by intro hc; exact hfull hc.2)]
        have hT : (acc ++ concat_texts type message ts (tokenize chain fmt (fuel + 1) i)).take 1023
            = acc := by
          rw [← hacc2, List.take_left']
          rfl
        rw [hT]
        exact ⟨rfl, le_refl _⟩

/-- The C string that `render` leaves in the buffer is the first 1023 bytes of
the unlimited rendering. -/
theorem render_truncates (fmt type message : List Nat) (ts : dilog_timestamp_t) :
    cstr (render fmt type message ts).1 = (reference_render fmt type message ts).take 1023 := by
  have h := render_loop_truncates match_and_write_chain fmt type message ts (fmt.length + 1) 0 []
    (by simp)
  simp only [List.nil_append, List.length_nil, Nat.sub_zero] at h
  unfold render
  dsimp only
  rw [h.1, set_zero_beyond _ _ _ h.2, cstr_append_zeros]
  apply cstr_of_no_zero
  intro c hc
  exact concat_texts_no_zero _ _ _ _ _ _ 0 c (List.mem_of_mem_take hc)

/-! ## The value of `out_index` -/

theorem render_loop_out_index (chain : List keyword) (fmt type message : List Nat)
    (ts : dilog_timestamp_t) (fuel : Nat) :
    ∀ (i : Nat) (output : List Nat) (out_index : Nat),
      (render_loop chain fmt type message ts fuel i output out_index).2
        = out_index_after type message ts out_index (tokenize chain fmt fuel i) := by
  induction fuel with
  | zero => intro i output out_index; rfl
  | succ fuel ih =>
    intro i output out_index
    by_cases hz : byte_at fmt i = 0
    · rw [render_loop, if_neg (by intro hc; exact hc.1 hz), tokenize, if_pos hz]
      rfl
    · rw [tokenize, if_neg hz]
      by_cases hfull : out_index < 1024 - 1
      · rw [render_loop, if_pos ⟨hz, hfull⟩]
        cases hm : first_match chain fmt i with
        | some k =>
          simp only [out_index_after, token_text, snprintf_snd]
          rw [if_pos (by omega), ih]
        | none =>
          simp only [out_index_after, token_text, List.length_singleton]
          rw [if_pos (by omega), ih]
      · rw [render_loop, if_neg (by intro hc; exact hfull hc.2)]
        cases hm : first_match chain fmt i with
        | some k =>
          simp only [out_index_after]
          rw [if_neg (by omega)]
        | none =>
          simp only [out_index_after]
          rw [if_neg (by omega)]

theorem cstr_long_message : cstr long_message = long_message := by
  apply cstr_of_no_zero
  intro c hc
  rw [(List.mem_replicate.mp hc).2]
  decide

theorem long_message_length : long_message.length = 1000 := by
  unfold long_message
  exact List.length_replicate _ _

theorem default_line_length (ts : dilog_timestamp_t) (m : List Nat) :
    (default_line ts m).length = 34 + (cstr m).length := by
  have b1 : (bytes "[").length = 1 := by decide
  have b2 : (bytes "-").length = 1 := by decide
  have b3 : (bytes " ").length = 1 := by decide
  have b4 : (bytes ":").length = 1 := by decide
  have b5 : (bytes ".").length = 1 := by decide
  have b6 : (bytes "] <info>: ").length = 10 := by decide
  simp only [default_line, List.length_append, zero_padded_length, b1, b2, b3, b4, b5, b6]

/-- With the default format and the default type, the loop ends with
`out_index` at 34 plus the length of the message, whatever that length. -/
theorem render_default_out_index (m : List Nat) (ts : dilog_timestamp_t)
    (hy : 0 ≤ ts.year ∧ ts.year ≤ 9999) (hmo : 0 ≤ ts.month ∧ ts.month ≤ 99)
    (hd : 0 ≤ ts.day ∧ ts.day ≤ 99) (hh : 0 ≤ ts.hour ∧ ts.hour ≤ 99)
    (hmi : 0 ≤ ts.minute ∧ ts.minute ≤ 99) (hs : 0 ≤ ts.second ∧ ts.second ≤ 99)
    (hms : 0 ≤ ts.ms ∧ ts.ms ≤ 999) :
    (render (topic_at (dilog_init g_dilog_ctx) 0).format
      (topic_at (dilog_init g_dilog_ctx) 0).default_type m ts).2 = 34 + (cstr m).length := by
  have hty : (cstr (topic_at (dilog_init g_dilog_ctx) 0).default_type).length = 4 := by decide
  have e1 := congrArg List.length (printf_0d_eq_zero_padded 3 ts.year hy.1 (by norm_num; omega))
  have e2 := congrArg List.length (printf_0d_eq_zero_padded 1 ts.month hmo.1 (by norm_num; omega))
  have e3 := congrArg List.length (printf_0d_eq_zero_padded 1 ts.day hd.1 (by norm_num; omega))
  have e4 := congrArg List.length (printf_0d_eq_zero_padded 1 ts.hour hh.1 (by norm_num; omega))
  have e5 := congrArg List.length (printf_0d_eq_zero_padded 1 ts.minute hmi.1 (by norm_num; omega))
  have e6 := congrArg List.length (printf_0d_eq_zero_padded 1 ts.second hs.1 (by norm_num; omega))
  have e7 := congrArg List.length (printf_0d_eq_zero_padded 2 ts.ms hms.1 (by norm_num; omega))
  rw [zero_padded_length] at e1 e2 e3 e4 e5 e6 e7
  unfold render
  dsimp only
  rw [render_loop_out_index, tokenize_default_format]
  simp [out_index_after, token_text, format_value, hty, e1, e2, e3, e4, e5, e6, e7]

/-! ## The claims -/

set_option maxRecDepth 1000000 in
/-- C1: after `dilog_init` on the empty registry, for every message `m` and
every timestamp with the year in 0..9999, the month, day, hour, minute and
second in 0..99 and the milliseconds in 0..999, such that the line fits in
1023 bytes, `dilog(m)` leaves the registry as it is and writes exactly
`ESC[38;2;17;255;17m`, then `[YYYY-MM-DD hh:mm:ss.mmm] <info>: ` followed by
the message, then `ESC[0m` and a newline, the fields being the zero-padded
decimal fields of the timestamp. -/
theorem default_line_end_to_end (m : List Nat) (ts : dilog_timestamp_t)
    (hy : 0 ≤ ts.year ∧ ts.year ≤ 9999) (hmo : 0 ≤ ts.month ∧ ts.month ≤ 99)
    (hd : 0 ≤ ts.day ∧ ts.day ≤ 99) (hh : 0 ≤ ts.hour ∧ ts.hour ≤ 99)
    (hmi : 0 ≤ ts.minute ∧ ts.minute ≤ 99) (hs : 0 ≤ ts.second ∧ ts.second ≤ 99)
    (hms : 0 ≤ ts.ms ∧ ts.ms ≤ 999)
    (hfit : (default_line ts m).length ≤ 1023) :
    dilog (dilog_init g_dilog_ctx) ts (some m)
      = (dilog_init g_dilog_ctx,
          bytes "\x1b[38;2;17;255;17m" ++ default_line ts m ++ bytes "\x1b[0m\n") := by
  have f1 : dilog_get_topic (dilog_init g_dilog_ctx) (some (dilog_init g_dilog_ctx).default_topic)
      = some 0 := by decide
  have f2 : (topic_at (dilog_init g_dilog_ctx) 0).terminal_output = true := by decide
  have f3 : resolve_topic (dilog_init g_dilog_ctx) (some (topic_at (dilog_init g_dilog_ctx) 0).name)
      = some (topic_at (dilog_init g_dilog_ctx) 0) := by decide
  have f4 : color_code_loop (topic_at (dilog_init g_dilog_ctx) 0)
      (topic_at (dilog_init g_dilog_ctx) 0).default_type
      (topic_at (dilog_init g_dilog_ctx) 0).type_count 0
      = some (type_at (topic_at (dilog_init g_dilog_ctx) 0) 1).color := by decide
  have f5 : ∀ out : List Nat,
      print_output (some (type_at (topic_at (dilog_init g_dilog_ctx) 0) 1).color) out
        = bytes "\x1b[38;2;17;255;17m" ++ cstr out ++ bytes "\x1b[0m\n" := by
    intro out
    have hrgb : color_rgb (type_at (topic_at (dilog_init g_dilog_ctx) 0) 1).color
        = (17, 255, 17) := by decide
    have p17 : printf_d 17 = bytes "17" := by decide
    have p255 : printf_d 255 = bytes "255" := by decide
    have e : bytes "\x1b[38;2;" ++ bytes "17" ++ bytes ";" ++ bytes "255" ++ bytes ";"
        ++ bytes "17" ++ bytes "m" = bytes "\x1b[38;2;17;255;17m" := by decide
    simp only [print_output, hrgb, p17, p255]
    rw [← e]
  have href := reference_render_default m ts hy hmo hd hh hmi hs hms
  have hr := (render_fits (topic_at (dilog_init g_dilog_ctx) 0).format
    (topic_at (dilog_init g_dilog_ctx) 0).default_type m ts (by rw [href]; exact hfit)).1
  rw [href] at hr
  unfold dilog
  simp only [f1, f2, Bool.not_true, Bool.false_eq_true, if_false]
  rw [dilog_console_print_eq _ ts _ _ m _ f3 f2, f4, f5, hr]

set_option maxRecDepth 1000000 in
/-- Witness of C1: the message `hello` at the time (2024, 3, 7, 9, 5, 2, 7,
`UTC`). -/
theorem default_line_end_to_end_witness :
    dilog (dilog_init g_dilog_ctx) ts_example (some (bytes "hello"))
      = (dilog_init g_dilog_ctx,
          bytes "\x1b[38;2;17;255;17m[2024-03-07 09:05:02.007] <info>: hello\x1b[0m\n") :=
  (default_line_end_to_end (bytes "hello") ts_example (by decide) (by decide) (by decide)
    (by decide) (by decide) (by decide) (by decide) (by decide)).trans (by decide)

/-- C2: `dilog_init` leaves every registry with `topic_count > 0` entirely
unchanged; from the empty registry, two calls give the same state as one
call, and that state holds exactly one topic, whose name is `main`. -/
theorem dilog_init_idempotent :
    (∀ s : dilog_context_t, 0 < s.topic_count → dilog_init s = s) ∧
    dilog_init (dilog_init g_dilog_ctx) = dilog_init g_dilog_ctx ∧
    (dilog_init (dilog_init g_dilog_ctx)).topic_count = 1 ∧
    cstr (topic_at (dilog_init (dilog_init g_dilog_ctx)) 0).name = bytes "main" := by
  have h1 : ∀ s : dilog_context_t, 0 < s.topic_count → dilog_init s = s := by
    intro s hs
    unfold dilog_init
    simp [hs]
  have h2 : dilog_init (dilog_init g_dilog_ctx) = dilog_init g_dilog_ctx :=
    h1 (dilog_init g_dilog_ctx) (by decide)
  refine ⟨h1, h2, ?_, ?_⟩
  · rw [h2]; decide
  · rw [h2]; decide

/-- Witness of C2: the registry left by `dilog_init` has a topic, and a
further `dilog_init` leaves it as it is. -/
theorem dilog_init_idempotent_witness :
    0 < (dilog_init g_dilog_ctx).topic_count ∧
    dilog_init (dilog_init g_dilog_ctx) = dilog_init g_dilog_ctx :=
  ⟨by decide, dilog_init_idempotent.1 (dilog_init g_dilog_ctx) (by decide)⟩

/-- C3: the state after `dilog_init` on the zero-initialised registry: one
topic `main` with the default format, default type `info`, terminal output
on, `terminal_advanced` off, no file path, no file handle, the two types
`error` and `info` with their colours; the current index is 0 and the
default topic is `main`. -/
theorem dilog_init_postcondition :
    (dilog_init g_dilog_ctx).topic_count = 1 ∧
    cstr (topic_at (dilog_init g_dilog_ctx) 0).name = bytes "main" ∧
    cstr (topic_at (dilog_init g_dilog_ctx) 0).format
      = bytes "[year-month-day hour:minute:second.ms] <type>: log" ∧
    cstr (topic_at (dilog_init g_dilog_ctx) 0).default_type = bytes "info" ∧
    (topic_at (dilog_init g_dilog_ctx) 0).terminal_output = true ∧
    (topic_at (dilog_init g_dilog_ctx) 0).terminal_advanced = false ∧
    cstr (topic_at (dilog_init g_dilog_ctx) 0).file_output_path = [] ∧
    (topic_at (dilog_init g_dilog_ctx) 0).file = none ∧
    (topic_at (dilog_init g_dilog_ctx) 0).type_count = 2 ∧
    cstr (type_at (topic_at (dilog_init g_dilog_ctx) 0) 0).type_name = bytes "error" ∧
    cstr (type_at (topic_at (dilog_init g_dilog_ctx) 0) 0).color = bytes "#B1FF31" ∧
    cstr (type_at (topic_at (dilog_init g_dilog_ctx) 0) 1).type_name = bytes "info" ∧
    cstr (type_at (topic_at (dilog_init g_dilog_ctx) 0) 1).color = bytes "#11FF11" ∧
    (dilog_init g_dilog_ctx).current_topic_index = 0 ∧
    cstr (dilog_init g_dilog_ctx).default_topic = bytes "main" := by
  decide

/-- C4: `dilog_get_topic` returns absent for a null name; for a name `nm` it
returns index `i` exactly when `i < topic_count`, the name stored at `i`
agrees with `nm` on the first 32 bytes and no smaller index does; it returns
absent exactly when no index below `topic_count` agrees; after `dilog_init`
the name `main` resolves to index 0. -/
theorem dilog_get_topic_first_match (ctx : dilog_context_t) :
    dilog_get_topic ctx none = none ∧
    (∀ (nm : List Nat) (i : Nat), dilog_get_topic ctx (some nm) = some i ↔
      (i < ctx.topic_count ∧ names_agree (topic_at ctx i).name nm ∧
        ∀ j, j < i → ¬ names_agree (topic_at ctx j).name nm)) ∧
    (∀ nm : List Nat, dilog_get_topic ctx (some nm) = none ↔
      ∀ i, i < ctx.topic_count → ¬ names_agree (topic_at ctx i).name nm) ∧
    dilog_get_topic (dilog_init g_dilog_ctx) (some (bytes "main")) = some 0 :=
  ⟨rfl, dilog_get_topic_some_iff ctx, dilog_get_topic_none_iff ctx, by decide⟩

/-- Witness of C4: in the registry left by `dilog_init`, index 0 is below
`topic_count` and its name agrees with `main`, so the lookup returns it; the
name `other` agrees with no registered topic and the lookup returns absent. -/
theorem dilog_get_topic_first_match_witness :
    dilog_get_topic (dilog_init g_dilog_ctx) (some (bytes "main")) = some 0 ∧
    dilog_get_topic (dilog_init g_dilog_ctx) (some (bytes "other")) = none :=
  ⟨((dilog_get_topic_first_match (dilog_init g_dilog_ctx)).2.1 (bytes "main") 0).mpr
      ⟨by decide, by decide, by decide⟩,
   ((dilog_get_topic_first_match (dilog_init g_dilog_ctx)).2.2.1 (bytes "other")).mpr
      (by decide)⟩

/-- C5: `dilog_console_print` and `dilog` never change the registry, and they
write nothing when the topic name agrees with no registered topic, when the
topic resolved by name or by the current index has `terminal_output = false`,
and, for `dilog`, on the empty registry before `dilog_init`. -/
theorem silent_without_topic (ctx : dilog_context_t) (ts : dilog_timestamp_t)
    (topic_name type message : Option (List Nat)) :
    (dilog_console_print ctx ts topic_name type message).1 = ctx ∧
    (dilog ctx ts message).1 = ctx ∧
    (∀ nm, topic_name = some nm →
      (∀ i, i < ctx.topic_count → ¬ names_agree (topic_at ctx i).name nm) →
      (dilog_console_print ctx ts topic_name type message).2 = []) ∧
    (∀ nm i, topic_name = some nm → dilog_get_topic ctx (some nm) = some i →
      (topic_at ctx i).terminal_output = false →
      (dilog_console_print ctx ts topic_name type message).2 = []) ∧
    (topic_name = none → (topic_at ctx ctx.current_topic_index).terminal_output = false →
      (dilog_console_print ctx ts topic_name type message).2 = []) ∧
    ((∀ i, i < ctx.topic_count → ¬ names_agree (topic_at ctx i).name ctx.default_topic) →
      (dilog ctx ts message).2 = []) ∧
    (∀ i, dilog_get_topic ctx (some ctx.default_topic) = some i →
      (topic_at ctx i).terminal_output = false → (dilog ctx ts message).2 = []) ∧
    (dilog g_dilog_ctx ts message).2 = [] := by
  refine ⟨dilog_console_print_fst _ _ _ _ _, dilog_fst _ _ _, ?_, ?_, ?_, ?_, ?_, ?_⟩
  · intro nm hn habs
    have hnone := (dilog_get_topic_none_iff ctx nm).mpr habs
    subst hn
    unfold dilog_console_print
    split
    · simp [resolve_topic, hnone]
    · rfl
  · intro nm i hn hsome hoff
    subst hn
    unfold dilog_console_print
    split
    · simp [resolve_topic, hsome, hoff]
    · rfl
  · intro hn hoff
    subst hn
    unfold dilog_console_print
    split
    · simp [resolve_topic, hoff]
    · rfl
  · intro habs
    have hnone := (dilog_get_topic_none_iff ctx ctx.default_topic).mpr habs
    unfold dilog
    split
    · rfl
    · simp [hnone]
  · intro i hsome hoff
    unfold dilog
    split
    · rfl
    · simp [hsome, hoff]
  · have hnone : dilog_get_topic g_dilog_ctx (some g_dilog_ctx.default_topic) = none := by decide
    unfold dilog
    split
    · rfl
    · simp [hnone]

/-- Witness of C5: on the empty registry the name `main` agrees with no
registered topic and nothing is written; on the registry whose topic `main`
has its terminal output off, `main` resolves to index 0 and nothing is
written. -/
theorem silent_without_topic_witness :
    (dilog_console_print g_dilog_ctx ts_example (some (bytes "main")) (some (bytes "info"))
      (some (bytes "hello"))).2 = [] ∧
    (dilog_console_print muted_registry ts_example (some (bytes "main")) (some (bytes "info"))
      (some (bytes "hello"))).2 = [] :=
  ⟨(silent_without_topic g_dilog_ctx ts_example (some (bytes "main")) (some (bytes "info"))
      (some (bytes "hello"))).2.2.1 (bytes "main") rfl (by decide),
   (silent_without_topic muted_registry ts_example (some (bytes "main")) (some (bytes "info"))
      (some (bytes "hello"))).2.2.2.1 (bytes "main") 0 rfl (by decide) (by decide)⟩

set_option maxRecDepth 1000000 in
/-- Counterexample to C6: after `dilog_init` the default topic exists and has
its terminal output on, yet `dilog` with the zero-length message writes a
line, and `dilog_console_print` with the zero-length type writes a line. -/
theorem empty_text_is_printed :
    resolve_topic (dilog_init g_dilog_ctx) (some (bytes "main"))
      = some (topic_at (dilog_init g_dilog_ctx) 0) ∧
    (topic_at (dilog_init g_dilog_ctx) 0).terminal_output = true ∧
    (dilog (dilog_init g_dilog_ctx) ts_example (some [])).2
      = bytes "\x1b[38;2;17;255;17m[2024-03-07 09:05:02.007] <info>: \x1b[0m\n" ∧
    (dilog (dilog_init g_dilog_ctx) ts_example (some [])).2 ≠ [] ∧
    (dilog_console_print (dilog_init g_dilog_ctx) ts_example (some (bytes "main")) (some [])
      (some (bytes "hello"))).2 = bytes "[2024-03-07 09:05:02.007] <>: hello\n" ∧
    (dilog_console_print (dilog_init g_dilog_ctx) ts_example (some (bytes "main")) (some [])
      (some (bytes "hello"))).2 ≠ [] := by
  decide

/-- C6, amended: `dilog_console_print` writes nothing and leaves the registry
as it is when the type is null or the message is null, and so does `dilog`
when the message is null. -/
theorem null_text_is_silent (ctx : dilog_context_t) (ts : dilog_timestamp_t)
    (topic_name type message : Option (List Nat)) :
    dilog_console_print ctx ts topic_name none message = (ctx, []) ∧
    dilog_console_print ctx ts topic_name type none = (ctx, []) ∧
    dilog ctx ts none = (ctx, []) := by
  refine ⟨?_, ?_, rfl⟩
  · cases message <;> rfl
  · cases type <;> rfl

/-- C7: for a colour `#` followed by exactly six hexadecimal digits (either
case) and the end of the string, the triple `(r, g, b)` that the code takes
out of the one 24-bit value equals the three pairs of digits parsed on their
own, that is `16 * v1 + v2`, `16 * v3 + v4`, `16 * v5 + v6` for the digit
values `v1` to `v6`; and the bytes written are `ESC[38;2;r;g;bm`, the line,
`ESC[0m` and a newline. -/
theorem well_formed_color (d1 d2 d3 d4 d5 d6 v1 v2 v3 v4 v5 v6 : Nat) (tl output : List Nat)
    (h1 : hex_digit d1 = some v1) (h2 : hex_digit d2 = some v2) (h3 : hex_digit d3 = some v3)
    (h4 : hex_digit d4 = some v4) (h5 : hex_digit d5 = some v5) (h6 : hex_digit d6 = some v6)
    (htl : byte_at tl 0 = 0) :
    color_rgb (35 :: d1 :: d2 :: d3 :: d4 :: d5 :: d6 :: tl)
      = (strtol_base16 [d1, d2], strtol_base16 [d3, d4], strtol_base16 [d5, d6]) ∧
    (strtol_base16 [d1, d2], strtol_base16 [d3, d4], strtol_base16 [d5, d6])
      = (((16 * v1 + v2 : Nat) : Int), ((16 * v3 + v4 : Nat) : Int), ((16 * v5 + v6 : Nat) : Int)) ∧
    print_output (some (35 :: d1 :: d2 :: d3 :: d4 :: d5 :: d6 :: tl)) output
      = bytes "\x1b[38;2;" ++ printf_d ((16 * v1 + v2 : Nat) : Int) ++ bytes ";"
        ++ printf_d ((16 * v3 + v4 : Nat) : Int) ++ bytes ";"
        ++ printf_d ((16 * v5 + v6 : Nat) : Int) ++ bytes "m" ++ cstr output
        ++ bytes "\x1b[0m\n" := by
  have hp : (strtol_base16 [d1, d2], strtol_base16 [d3, d4], strtol_base16 [d5, d6])
      = (((16 * v1 + v2 : Nat) : Int), ((16 * v3 + v4 : Nat) : Int), ((16 * v5 + v6 : Nat) : Int)) := by
    rw [strtol_base16_pair d1 d2 v1 v2 h1 h2, strtol_base16_pair d3 d4 v3 v4 h3 h4,
      strtol_base16_pair d5 d6 v5 v6 h5 h6]
  have b1 := (hex_digit_facts d1 v1 h1).1
  have b2 := (hex_digit_facts d2 v2 h2).1
  have b3 := (hex_digit_facts d3 v3 h3).1
  have b4 := (hex_digit_facts d4 v4 h4).1
  have b5 := (hex_digit_facts d5 v5 h5).1
  have b6 := (hex_digit_facts d6 v6 h6).1
  have hrun := strtol_base16_hex_run [d1, d2, d3, d4, d5, d6] tl
    (by intro d hd
        simp only [List.mem_cons, List.mem_singleton, List.not_mem_nil, or_false] at hd
        rcases hd with rfl | rfl | rfl | rfl | rfl | rfl <;> simp [*])
    (by simp) (by rw [htl]; decide) (by simp) (by simp)
  simp only [hex_accum, h1, h2, h3, h4, h5, h6] at hrun
  have hc := color_rgb_of_strtol (35 :: d1 :: d2 :: d3 :: d4 :: d5 :: d6 :: tl) _
    (by norm_num; omega) hrun
  have hrgb : color_rgb (35 :: d1 :: d2 :: d3 :: d4 :: d5 :: d6 :: tl)
      = (((16 * v1 + v2 : Nat) : Int), ((16 * v3 + v4 : Nat) : Int), ((16 * v5 + v6 : Nat) : Int)) := by
    rw [hc]
    have e1 : (16 * (16 * (16 * (16 * (16 * (16 * 0 + v1) + v2) + v3) + v4) + v5) + v6)
        / 65536 % 256 = 16 * v1 + v2 := by omega
    have e2 : (16 * (16 * (16 * (16 * (16 * (16 * 0 + v1) + v2) + v3) + v4) + v5) + v6)
        / 256 % 256 = 16 * v3 + v4 := by omega
    have e3 : (16 * (16 * (16 * (16 * (16 * (16 * 0 + v1) + v2) + v3) + v4) + v5) + v6)
        % 256 = 16 * v5 + v6 := by omega
    rw [e1, e2, e3]
  refine ⟨hrgb.trans hp.symm, hp, ?_⟩
  simp only [print_output, hrgb]

/-- Witness of C7: the colours `#11FF11`, `#000000` and `#B1FF31`. -/
theorem well_formed_color_witness :
    print_output (some (bytes "#11FF11")) (bytes "line")
      = bytes "\x1b[38;2;17;255;17mline\x1b[0m\n" ∧
    color_rgb (bytes "#000000") = (0, 0, 0) ∧
    color_rgb (bytes "#11FF11") = (17, 255, 17) ∧
    color_rgb (bytes "#B1FF31") = (177, 255, 49) :=
  ⟨((well_formed_color 49 49 70 70 49 49 1 1 15 15 1 1 [] (bytes "line")
      (by decide) (by decide) (by decide) (by decide) (by decide) (by decide) (by decide)).2.2).trans
      (by decide),
   by decide, by decide, by decide⟩

/-- Counterexample to C8: in `#-1` no hexadecimal digit follows the first
character, yet the triple is `(255, 255, 255)` and not the `(0, 0, 0)` of
`#000000`; in `#0x1F` the one digit `0` is followed by the byte `x`, which is
not a digit, yet the triple is `(0, 0, 31)`. -/
theorem short_color_not_always_padded :
    hex_digit 45 = none ∧
    color_rgb (bytes "#-1") = (255, 255, 255) ∧
    color_rgb (bytes "#000000") = (0, 0, 0) ∧
    color_rgb (bytes "#-1") ≠ color_rgb (bytes "#000000") ∧
    hex_digit 48 = some 0 ∧ hex_digit 120 = none ∧
    color_rgb (bytes "#0x1F") = (0, 0, 31) ∧
    color_rgb (bytes "#0x1F") ≠ color_rgb (bytes "#000000") := by
  decide

/-- C8, amended: for a colour made of one leading character, `k < 6`
hexadecimal digits and then the end of the string or a byte that is not a
hexadecimal digit, the triple equals the triple of the same digits padded
with zeros on the left to six digits, provided that the text after the
leading character does not start with white space or a sign (when `k = 0`)
nor with `0x` or `0X` and a hexadecimal digit (when the digits are `0`). -/
theorem short_color_zero_padded (lead : Nat) (ds tl : List Nat)
    (hk : ds.length < 6) (hds : ∀ d ∈ ds, (hex_digit d).isSome = true)
    (htl : hex_digit (byte_at tl 0) = none)
    (h0 : ds = [] → isspace (byte_at tl 0) = false ∧ byte_at tl 0 ≠ 45 ∧ byte_at tl 0 ≠ 43)
    (hx : ds = [48] → ¬ ((byte_at tl 0 = 120 ∨ byte_at tl 0 = 88) ∧
      (hex_digit (byte_at tl 1)).isSome = true)) :
    color_rgb (lead :: (ds ++ tl))
      = color_rgb (lead :: (List.replicate (6 - ds.length) 48 ++ ds)) := by
  have hl := strtol_base16_hex_run ds tl hds (by omega) htl h0 hx
  have hr := strtol_base16_hex_run (List.replicate (6 - ds.length) 48 ++ ds) []
    (by intro d hd
        rcases List.mem_append.mp hd with hd | hd
        · rw [(List.mem_replicate.mp hd).2]; decide
        · exact hds d hd)
    (by simp; omega) (by decide)
    (by intro h
        have := congrArg List.length h
        simp at this
        omega)
    (by intro h
        have := congrArg List.length h
        simp at this
        omega)
  rw [List.append_nil, hex_accum_zeros] at hr
  unfold color_rgb
  simp only [List.drop_succ_cons, List.drop_zero, hl, hr]

/-- Witness of C8: `#FFF` gives `(0, 15, 255)` like `#000FFF`, `#1` gives
`(0, 0, 1)`, and a colour without any digit gives `(0, 0, 0)`. -/
theorem short_color_zero_padded_witness :
    color_rgb (35 :: (bytes "FFF" ++ [])) = color_rgb (35 :: (List.replicate (6 - 3) 48 ++ bytes "FFF")) ∧
    color_rgb (bytes "#FFF") = (0, 15, 255) ∧
    color_rgb (bytes "#1") = (0, 0, 1) ∧
    color_rgb (bytes "#") = (0, 0, 0) :=
  ⟨short_color_zero_padded 35 (bytes "FFF") [] (by decide) (by decide) (by decide)
      (by decide) (by decide),
   by decide, by decide, by decide⟩

set_option maxRecDepth 1000000 in
/-- Counterexample to C9: the topic `main` has every string NUL-terminated
within its array, its terminal output on and the empty string as colour of
its palette entry `info`, yet the line is wrapped in `ESC[38;2;0;0;0m` and
`ESC[0m`. -/
theorem empty_color_is_wrapped :
    topic_invariant (topic_at colorless_registry 0) ∧
    (topic_at colorless_registry 0).terminal_output = true ∧
    types_agree (type_at (topic_at colorless_registry 0) 1).type_name (bytes "info") ∧
    cstr (type_at (topic_at colorless_registry 0) 1).color = [] ∧
    (dilog_console_print colorless_registry ts_example (some (bytes "main")) (some (bytes "info"))
      (some (bytes "hello"))).2
      = bytes "\x1b[38;2;0;0;0m[2024-03-07 09:05:02.007] <info>: hello\x1b[0m\n" ∧
    (dilog_console_print colorless_registry ts_example (some (bytes "main")) (some (bytes "info"))
      (some (bytes "hello"))).2
      ≠ cstr (render (topic_at colorless_registry 0).format (bytes "info") (bytes "hello")
          ts_example).1 ++ bytes "\n" := by
  decide

/-- C9, amended: for every topic whose strings are NUL-terminated within
their arrays and whose terminal output is on, and every type that agrees
with no palette entry below `type_count`, which is the one case in which the
code has no colour, `dilog_console_print` writes exactly the rendered line
followed by a newline, without any escape sequence. -/
theorem unmatched_type_unwrapped (ctx : dilog_context_t) (ts : dilog_timestamp_t)
    (topic_name : Option (List Nat)) (ty msg : List Nat) (t : dilog_topic_t)
    (hres : resolve_topic ctx topic_name = some t) (hinv : topic_invariant t)
    (hon : t.terminal_output = true)
    (hno : ∀ i, i < t.type_count → ¬ types_agree (type_at t i).type_name ty) :
    (dilog_console_print ctx ts topic_name (some ty) (some msg)).2
      = cstr (render t.format ty msg ts).1 ++ bytes "\n" := by
  have _ := hinv
  have hc : color_code_loop t ty t.type_count 0 = none :=
    (color_code_loop_none t ty t.type_count 0).mpr
      (fun j _ hj => hno j (by simpa using hj))
  rw [dilog_console_print_eq ctx ts topic_name ty msg t hres hon, hc]
  rfl

set_option maxRecDepth 1000000 in
/-- Witness of C9: after `dilog_init` the topic `main` has its strings
NUL-terminated, the type `debug` agrees with neither palette entry, and the
line is written without escape sequence. -/
theorem unmatched_type_unwrapped_witness :
    (dilog_console_print (dilog_init g_dilog_ctx) ts_example (some (bytes "main"))
      (some (bytes "debug")) (some (bytes "hello"))).2
      = bytes "[2024-03-07 09:05:02.007] <debug>: hello\n" :=
  (unmatched_type_unwrapped (dilog_init g_dilog_ctx) ts_example (some (bytes "main"))
    (bytes "debug") (bytes "hello") (topic_at (dilog_init g_dilog_ctx) 0)
    (by decide) (by decide) (by decide) (by decide)).trans (by decide)

/-- C10: for a template of at most 127 bytes in which none of the ten
keywords occurs, whatever the type, the message and the timestamp, the line
left in the render buffer is the template itself, byte for byte. -/
theorem literal_text_unchanged (fmt type message : List Nat) (ts : dilog_timestamp_t)
    (hlen : (cstr fmt).length ≤ 127)
    (hno : ∀ k ∈ match_and_write_chain, ¬ (KEYWORD k <:+: cstr fmt)) :
    cstr (render fmt type message ts).1 = cstr fmt ∧
    (render fmt type message ts).2 = (cstr fmt).length := by
  have href := reference_render_no_keyword fmt type message ts hno
  have h := render_fits fmt type message ts (by rw [href]; omega)
  rw [href] at h
  exact h

/-- Witness of C10: the template `[#] <lvl> at 12:30 | end.` holds no keyword
and is rendered as it stands. -/
theorem literal_text_unchanged_witness :
    cstr (render (bytes "[#] <lvl> at 12:30 | end.") (bytes "info") (bytes "hello") ts_example).1
      = bytes "[#] <lvl> at 12:30 | end." :=
  (literal_text_unchanged (bytes "[#] <lvl> at 12:30 | end.") (bytes "info") (bytes "hello")
    ts_example (by decide) (by decide)).1

/-- C11: the substituted text is not scanned again: for every message of at
most 1023 bytes the template `log` renders exactly the message, and for
every type name of at most 1023 bytes the template `type` renders exactly the
type name, whatever keyword text they hold. -/
theorem substituted_text_not_rescanned (m t type message : List Nat) (ts : dilog_timestamp_t)
    (hm : (cstr m).length ≤ 1023) (ht : (cstr t).length ≤ 1023) :
    cstr (render (bytes "log") type m ts).1 = cstr m ∧
    cstr (render (bytes "type") t message ts).1 = cstr t := by
  have h1 := reference_render_KEYWORD keyword.log type m ts
  have h2 := reference_render_KEYWORD keyword.type t message ts
  have r1 := (render_fits (KEYWORD keyword.log) type m ts (by rw [h1]; exact hm)).1
  have r2 := (render_fits (KEYWORD keyword.type) t message ts (by rw [h2]; exact ht)).1
  rw [h1] at r1
  rw [h2] at r2
  exact ⟨r1, r2⟩

/-- Witness of C11: with the template `log`, the message `log` renders `log`
and the message `year-ms` renders `year-ms`. -/
theorem substituted_text_not_rescanned_witness :
    cstr (render (bytes "log") (bytes "info") (bytes "log") ts_example).1 = bytes "log" ∧
    cstr (render (bytes "log") (bytes "info") (bytes "year-ms") ts_example).1 = bytes "year-ms" :=
  ⟨((substituted_text_not_rescanned (bytes "log") (bytes "type") (bytes "info") (bytes "x")
      ts_example (by decide) (by decide)).1).trans (by decide),
   ((substituted_text_not_rescanned (bytes "year-ms") (bytes "type") (bytes "info") (bytes "x")
      ts_example (by decide) (by decide)).1).trans (by decide)⟩

/-- Counterexample to C12: in the template `dayear` the keyword `year` occurs
at position 2, yet the scan takes `day` at position 0, goes on at position 3
and copies `e`, `a`, `r` as literal text: the line is `07ear`. -/
theorem overlapped_keyword_is_copied :
    KEYWORD keyword.year <+: (cstr (bytes "dayear")).drop 2 ∧
    tokenize match_and_write_chain (bytes "dayear") ((bytes "dayear").length + 1) 0
      = [token.key keyword.day, token.lit 101, token.lit 97, token.lit 114] ∧
    cstr (render (bytes "dayear") (bytes "info") (bytes "hello") ts_example).1
      = bytes "07ear" := by
  decide

/-- C12, amended: when the scan stands at a position `p` at which a keyword
occurs in the template and the buffer is not yet full, the iteration
substitutes the keyword (one `snprintf` of its text) and the scan goes on
right after the keyword: none of its characters is copied as literal text.
An occurrence that starts inside a keyword already taken is never stood
at. -/
theorem keyword_at_scan_position (fmt type message : List Nat) (ts : dilog_timestamp_t)
    (k : keyword) (p fuel : Nat) (output : List Nat) (out_index : Nat)
    (hocc : KEYWORD k <+: (cstr fmt).drop p) (hroom : out_index < 1023) :
    render_loop match_and_write_chain fmt type message ts (fuel + 1) p output out_index
      = render_loop match_and_write_chain fmt type message ts fuel (p + (KEYWORD k).length)
          (snprintf output out_index (1024 - out_index) (format_value type message ts k)).1
          (out_index + (format_value type message ts k).length) ∧
    tokenize match_and_write_chain fmt (fuel + 1) p
      = token.key k :: tokenize match_and_write_chain fmt fuel (p + (KEYWORD k).length) := by
  have hp := occurs_position_lt fmt p k hocc
  have hz : byte_at fmt p ≠ 0 := (byte_at_cstr fmt p hp).2
  have hm := first_match_eq_some match_and_write_chain fmt p k (mem_match_and_write_chain k)
    (keyword_matches_of_occurs fmt p k hocc)
  constructor
  · rw [render_loop, if_pos ⟨hz, by omega⟩, hm]
    simp only [snprintf_snd]
  · rw [tokenize, if_neg hz, hm]

/-- Witness of C12: in the template `a-year` the scan stands at position 2,
where `year` occurs, and takes it as one unit. -/
theorem keyword_at_scan_position_witness :
    tokenize match_and_write_chain (bytes "a-year") (4 + 1) 2
      = token.key keyword.year
        :: tokenize match_and_write_chain (bytes "a-year") 4 (2 + (KEYWORD keyword.year).length) :=
  (keyword_at_scan_position (bytes "a-year") (bytes "info") (bytes "hello") ts_example
    keyword.year 2 4 (List.replicate 1024 0) 0 (by decide) (by decide)).2

/-- C13: the text substituted for `year` is exactly 4 decimal digits whose
value is the year when the year is in 0..9999; for `month`, `day`, `hour`,
`minute` and `second` it is exactly 2 decimal digits whose value is the field
when the field is in 0..99; for `ms` it is exactly 3 decimal digits whose
value is the field when it is in 0..999; for `timezone` it is the timezone
string unchanged.  The one-keyword templates render exactly these texts. -/
theorem fixed_zero_padded_widths (type message : List Nat) (ts : dilog_timestamp_t) :
    (0 ≤ ts.year → ts.year ≤ 9999 →
      decimal_field 4 ts.year (format_value type message ts keyword.year) ∧
      cstr (render (bytes "year") type message ts).1 = format_value type message ts keyword.year) ∧
    (0 ≤ ts.month → ts.month ≤ 99 →
      decimal_field 2 ts.month (format_value type message ts keyword.month) ∧
      cstr (render (bytes "month") type message ts).1
        = format_value type message ts keyword.month) ∧
    (0 ≤ ts.day → ts.day ≤ 99 →
      decimal_field 2 ts.day (format_value type message ts keyword.day) ∧
      cstr (render (bytes "day") type message ts).1 = format_value type message ts keyword.day) ∧
    (0 ≤ ts.hour → ts.hour ≤ 99 →
      decimal_field 2 ts.hour (format_value type message ts keyword.hour) ∧
      cstr (render (bytes "hour") type message ts).1 = format_value type message ts keyword.hour) ∧
    (0 ≤ ts.minute → ts.minute ≤ 99 →
      decimal_field 2 ts.minute (format_value type message ts keyword.minute) ∧
      cstr (render (bytes "minute") type message ts).1
        = format_value type message ts keyword.minute) ∧
    (0 ≤ ts.second → ts.second ≤ 99 →
      decimal_field 2 ts.second (format_value type message ts keyword.second) ∧
      cstr (render (bytes "second") type message ts).1
        = format_value type message ts keyword.second) ∧
    (0 ≤ ts.ms → ts.ms ≤ 999 →
      decimal_field 3 ts.ms (format_value type message ts keyword.ms) ∧
      cstr (render (bytes "ms") type message ts).1 = format_value type message ts keyword.ms) ∧
    format_value type message ts keyword.timezone = cstr ts.timezone ∧
    ((cstr ts.timezone).length ≤ 1023 →
      cstr (render (bytes "timezone") type message ts).1 = cstr ts.timezone) := by
  have key : ∀ (k : keyword) (w : Nat) (v : Int),
      format_value type message ts k = printf_0d (w + 1) v → w + 1 ≤ 1023 →
      0 ≤ v → v < 10 ^ (w + 1) →
      decimal_field (w + 1) v (format_value type message ts k) ∧
      cstr (render (KEYWORD k) type message ts).1 = format_value type message ts k := by
    intro k w v hk hw h0 h1
    have hd := decimal_field_printf_0d w v h0 h1
    rw [← hk] at hd
    have href := reference_render_KEYWORD k type message ts
    have hr := (render_fits (KEYWORD k) type message ts (by rw [href, hd.1]; exact hw)).1
    rw [href] at hr
    exact ⟨hd, hr⟩
  refine ⟨?_, ?_, ?_, ?_, ?_, ?_, ?_, rfl, ?_⟩
  · intro h0 h1; exact key keyword.year 3 ts.year rfl (by decide) h0 (by norm_num; omega)
  · intro h0 h1; exact key keyword.month 1 ts.month rfl (by decide) h0 (by norm_num; omega)
  · intro h0 h1; exact key keyword.day 1 ts.day rfl (by decide) h0 (by norm_num; omega)
  · intro h0 h1; exact key keyword.hour 1 ts.hour rfl (by decide) h0 (by norm_num; omega)
  · intro h0 h1; exact key keyword.minute 1 ts.minute rfl (by decide) h0 (by norm_num; omega)
  · intro h0 h1; exact key keyword.second 1 ts.second rfl (by decide) h0 (by norm_num; omega)
  · intro h0 h1; exact key keyword.ms 2 ts.ms rfl (by decide) h0 (by norm_num; omega)
  · intro hz
    have href := reference_render_KEYWORD keyword.timezone type message ts
    have hr := (render_fits (KEYWORD keyword.timezone) type message ts
      (by rw [href]; exact hz)).1
    rw [href] at hr
    exact hr

/-- Witness of C13: at the time (2024, 3, 7, 9, 5, 2, 7, `UTC`) the year is
rendered `2024`, the month `03` and the milliseconds `007`. -/
theorem fixed_zero_padded_widths_witness :
    cstr (render (bytes "year") (bytes "info") (bytes "hello") ts_example).1 = bytes "2024" ∧
    cstr (render (bytes "month") (bytes "info") (bytes "hello") ts_example).1 = bytes "03" ∧
    cstr (render (bytes "ms") (bytes "info") (bytes "hello") ts_example).1 = bytes "007" ∧
    cstr (render (bytes "timezone") (bytes "info") (bytes "hello") ts_example).1 = bytes "UTC" :=
  ⟨(((fixed_zero_padded_widths (bytes "info") (bytes "hello") ts_example).1
      (by decide) (by decide)).2).trans (by decide),
   (((fixed_zero_padded_widths (bytes "info") (bytes "hello") ts_example).2.1
      (by decide) (by decide)).2).trans (by decide),
   (((fixed_zero_padded_widths (bytes "info") (bytes "hello") ts_example).2.2.2.2.2.2.1
      (by decide) (by decide)).2).trans (by decide),
   ((fixed_zero_padded_widths (bytes "info") (bytes "hello") ts_example).2.2.2.2.2.2.2.2
      (by decide)).trans (by decide)⟩

/-- C14, the code at a failing input: with the default format of 50 bytes and
a message of 1000 bytes, the last `snprintf` returns 1000 at `out_index = 34`,
so `out_index` ends at 1034 and the store `output[out_index] = 0` falls
outside the 1024 bytes of `output`. -/
theorem render_index_overrun :
    (cstr (topic_at (dilog_init g_dilog_ctx) 0).format).length = 50 ∧
    (cstr long_message).length = 1000 ∧
    (render (topic_at (dilog_init g_dilog_ctx) 0).format
      (topic_at (dilog_init g_dilog_ctx) 0).default_type long_message ts_example).2 = 1034 ∧
    ¬ ((render (topic_at (dilog_init g_dilog_ctx) 0).format
      (topic_at (dilog_init g_dilog_ctx) 0).default_type long_message ts_example).2 ≤ 1023) := by
  have hl : (cstr long_message).length = 1000 := by
    rw [cstr_long_message, long_message_length]
  have h := render_default_out_index long_message ts_example (by decide) (by decide) (by decide)
    (by decide) (by decide) (by decide) (by decide)
  rw [hl] at h
  refine ⟨by decide, hl, h, ?_⟩
  rw [h]
  decide

set_option maxRecDepth 1000000 in
/-- C15: every registry reached from the static `g_dilog_ctx` by calls of
`dilog_init`, `dilog` and `dilog_console_print` has `topic_count ≤ 16`, and
for every registered topic `type_count ≤ 8` and the name, the format, the
default type, the type names and the colours NUL-terminated within their
arrays, as is `default_topic`; once `dilog_init` has run,
`current_topic_index < topic_count`. -/
theorem registry_invariant_reachable (b : Bool) (s : dilog_context_t) (h : reachable b s) :
    registry_invariant s ∧ (b = true → s.current_topic_index < s.topic_count) := by
  rcases reachable_cases b s h with ⟨hb, rfl⟩ | ⟨_, rfl⟩
  · subst hb
    exact ⟨by decide, fun e => absurd e (by decide)⟩
  · exact ⟨by decide, fun _ => by decide⟩

/-- Witness of C15: the registry after `dilog_init`, a `dilog` and a
`dilog_console_print`. -/
theorem registry_invariant_reachable_witness :
    registry_invariant
      (dilog_console_print (dilog (dilog_init g_dilog_ctx) ts_example (some (bytes "hello"))).1
        ts_example (some (bytes "main")) (some (bytes "error")) (some long_message)).1 ∧
    (true = true →
      (dilog_console_print (dilog (dilog_init g_dilog_ctx) ts_example (some (bytes "hello"))).1
        ts_example (some (bytes "main")) (some (bytes "error"))
        (some long_message)).1.current_topic_index
      < (dilog_console_print (dilog (dilog_init g_dilog_ctx) ts_example (some (bytes "hello"))).1
        ts_example (some (bytes "main")) (some (bytes "error")) (some long_message)).1.topic_count) :=
  registry_invariant_reachable true _
    (reachable.print ts_example (some (bytes "main")) (some (bytes "error")) (some long_message)
      (reachable.log ts_example (some (bytes "hello")) (reachable.init reachable.start)))

/-- C17: none of the ten keywords is the start of another one, so at most one
keyword matches at any position of any template, and the renderer whose
chain tests the keywords in any other order gives the same buffer and the
same `out_index` as the renderer of the source. -/
theorem keyword_order_irrelevant :
    (∀ k k2 : keyword, KEYWORD k <+: KEYWORD k2 → k = k2) ∧
    (∀ (fmt : List Nat) (i : Nat) (k k2 : keyword),
      keyword_matches fmt i k = true → keyword_matches fmt i k2 = true → k = k2) ∧
    (∀ chain : List keyword, List.Perm chain match_and_write_chain →
      ∀ (fmt type message : List Nat) (ts : dilog_timestamp_t),
        render_with chain fmt type message ts = render fmt type message ts) := by
  refine ⟨KEYWORD_no_proper_start, keyword_matches_unique, ?_⟩
  intro chain hp fmt type message ts
  rw [← render_with_source_order]
  unfold render_with
  rw [render_loop_perm chain match_and_write_chain hp]

/-- Witness of C17: the chain taken in the reverse order renders the default
format like the chain of the source. -/
theorem keyword_order_irrelevant_witness :
    render_with match_and_write_chain.reverse
        (bytes "[year-month-day hour:minute:second.ms] <type>: log") (bytes "info")
        (bytes "hello") ts_example
      = render (bytes "[year-month-day hour:minute:second.ms] <type>: log") (bytes "info")
        (bytes "hello") ts_example :=
  keyword_order_irrelevant.2.2 match_and_write_chain.reverse (List.reverse_perm _)
    (bytes "[year-month-day hour:minute:second.ms] <type>: log") (bytes "info")
    (bytes "hello") ts_example

/-- C18: the C string left in the render buffer is the first `min(1023, n)`
bytes of the unlimited rendering of length `n`; it is never longer than 1023
bytes, it is the whole rendering when that fits, and an iteration that starts
with `out_index` at 1023 or more leaves the loop without reading the
template. -/
theorem truncation_keeps_start (fmt type message : List Nat) (ts : dilog_timestamp_t) :
    cstr (render fmt type message ts).1 = (reference_render fmt type message ts).take 1023 ∧
    (cstr (render fmt type message ts).1).length
      = min 1023 (reference_render fmt type message ts).length ∧
    (cstr (render fmt type message ts).1).length ≤ 1023 ∧
    ((reference_render fmt type message ts).length ≤ 1023 →
      cstr (render fmt type message ts).1 = reference_render fmt type message ts) ∧
    (∀ (fuel i : Nat) (output : List Nat) (out_index : Nat), 1023 ≤ out_index →
      render_loop match_and_write_chain fmt type message ts fuel i output out_index
        = (output, out_index)) := by
  have h := render_truncates fmt type message ts
  refine ⟨h, ?_, ?_, ?_, ?_⟩
  · rw [h, List.length_take]
  · rw [h, List.length_take]; omega
  · intro hfit
    rw [h, List.take_of_length_le hfit]
  · intro fuel i output out_index hfull
    exact render_loop_full _ _ _ _ _ _ _ _ _ hfull

/-- Witness of C18: the template `log` with the message `hello` keeps the
whole message, and the default format with a message of 1000 bytes, whose
unlimited rendering has 1034 bytes, keeps 1023 bytes. -/
theorem truncation_keeps_start_witness :
    cstr (render (bytes "log") (bytes "info") (bytes "hello") ts_example).1 = bytes "hello" ∧
    (cstr (render (topic_at (dilog_init g_dilog_ctx) 0).format
      (topic_at (dilog_init g_dilog_ctx) 0).default_type long_message ts_example).1).length
      = 1023 :=
  ⟨((truncation_keeps_start (bytes "log") (bytes "info") (bytes "hello") ts_example).2.2.2.1
      (by decide)).trans (by decide),
   ((truncation_keeps_start (topic_at (dilog_init g_dilog_ctx) 0).format
      (topic_at (dilog_init g_dilog_ctx) 0).default_type long_message ts_example).2.1).trans
      (by rw [reference_render_default long_message ts_example (by decide) (by decide)
            (by decide) (by decide) (by decide) (by decide) (by decide),
          default_line_length, cstr_long_message, long_message_length]
          decide)⟩

/-- C19: in a registry whose registered topic names are NUL-terminated within
their 32 bytes, `dilog_get_topic` returns a topic exactly when the name of
some registered topic equals the given name as a whole string; a name of 32
bytes or more matches nothing, and two names that resolve to the same topic
are the same string. -/
theorem name_cap_is_exact (ctx : dilog_context_t)
    (hwf : ∀ i, i < ctx.topic_count → nul_terminated DILOG_MAX_NAME_LEN (topic_at ctx i).name) :
    (∀ nm : List Nat, (∃ i, dilog_get_topic ctx (some nm) = some i) ↔
      ∃ i, i < ctx.topic_count ∧ cstr (topic_at ctx i).name = cstr nm) ∧
    (∀ nm : List Nat, 32 ≤ (cstr nm).length → dilog_get_topic ctx (some nm) = none) ∧
    (∀ (nm1 nm2 : List Nat) (i : Nat), dilog_get_topic ctx (some nm1) = some i →
      dilog_get_topic ctx (some nm2) = some i → cstr nm1 = cstr nm2) := by
  have hlen : ∀ i, i < ctx.topic_count → (cstr (topic_at ctx i).name).length ≤ 31 := by
    intro i hi
    have h := hwf i hi
    have := cstr_length_lt_of_nul _ h.2
    rw [h.1] at this
    unfold DILOG_MAX_NAME_LEN at this
    omega
  refine ⟨?_, ?_, ?_⟩
  · intro nm
    constructor
    · rintro ⟨i, hi⟩
      obtain ⟨h1, h2, _⟩ := (dilog_get_topic_some_iff ctx nm i).mp hi
      exact ⟨i, h1, (names_agree_iff_eq _ _ (hlen i h1)).mp h2⟩
    · rintro ⟨i, h1, h2⟩
      have hne : dilog_get_topic ctx (some nm) ≠ none := by
        intro hn
        exact (dilog_get_topic_none_iff ctx nm).mp hn i h1
          ((names_agree_iff_eq _ _ (hlen i h1)).mpr h2)
      exact Option.ne_none_iff_exists'.mp hne
  · intro nm hnm
    rw [dilog_get_topic_none_iff]
    intro i hi ha
    have := names_agree_length _ _ (hlen i hi) ha
    omega
  · intro nm1 nm2 i h1 h2
    obtain ⟨hi, a1, _⟩ := (dilog_get_topic_some_iff ctx nm1 i).mp h1
    obtain ⟨_, a2, _⟩ := (dilog_get_topic_some_iff ctx nm2 i).mp h2
    rw [← (names_agree_iff_eq _ _ (hlen i hi)).mp a1, ← (names_agree_iff_eq _ _ (hlen i hi)).mp a2]

/-- Witness of C19: after `dilog_init` the name `main` is found, and a name of
40 bytes that starts with `main` is not. -/
theorem name_cap_is_exact_witness :
    (∃ i, dilog_get_topic (dilog_init g_dilog_ctx) (some (bytes "main")) = some i) ∧
    dilog_get_topic (dilog_init g_dilog_ctx)
      (some (bytes "main" ++ List.replicate 36 120)) = none :=
  ⟨((name_cap_is_exact (dilog_init g_dilog_ctx) (by decide)).1 (bytes "main")).mpr
      ⟨0, by decide, by decide⟩,
   (name_cap_is_exact (dilog_init g_dilog_ctx) (by decide)).2.1
      (bytes "main" ++ List.replicate 36 120) (by decide)⟩

end Dilog
